import Mathlib

/-!
Verification of the fluxor-db resilience gate, caches, metrics, TCP server
admission logic and wire protocol, as a shallow embedding of the Go source.

Conventions:
* Machine time (`time.Time`, `time.Duration`) is modelled as `Int` nanoseconds;
  Go's zero `time.Time` is modelled as `0` (or `Option Int` where the code
  distinguishes the zero value explicitly, as in cache expiry times).
* Go `int`/`int64` counters are modelled as `Int` (overflow is irrelevant at the
  magnitudes exercised here; no claim depends on wraparound).
* Each stateful method becomes a pure function `State → args → result × State`.
* Every function that reads the wall clock takes the current time as an
  explicit `now : Int` argument.
-/

/-- One second in nanoseconds (`time.Second`). -/
def nsPerSec : Int := 1000000000

/- ### gate.go: circuit breaker, rate limiter, connection limiter -/

/-- Circuit state constants (`circuitClosed` iota block in gate.go). -/
def circuitClosed : Nat := 0

/-- `circuitOpen` constant. -/
def circuitOpen : Nat := 1

/-- `circuitHalfOpen` constant. -/
def circuitHalfOpen : Nat := 2

/-- Gate error values (`ErrCircuitOpen`, `ErrRateLimitExceeded`,
`ErrConnectionLimit`, and a context-cancellation error). -/
inductive GateError where
  | circuitOpenErr
  | rateLimitExceeded
  | connectionLimit
  | ctxCanceled
deriving Repr, DecidableEq

/-- `GateConfig` from gate.go (durations in ns). -/
structure GateConfig where
  maxFailures : Int := 0
  resetTimeout : Int := 0
  halfOpenTimeout : Int := 0
  maxRequestsPerSecond : Int := 0
  maxConcurrentConnections : Int := 0
  backpressureMode : String := ""
  backpressureTimeout : Int := 0
deriving Repr, DecidableEq

/-- `CircuitBreaker` struct from gate.go. `state` is one of
`circuitClosed`/`circuitOpen`/`circuitHalfOpen`. -/
structure CircuitBreaker where
  maxFailures : Int
  resetTimeout : Int
  halfOpenTimeout : Int
  failureCount : Int
  lastFailureTime : Int
  state : Nat
deriving Repr, DecidableEq

/-- `NewCircuitBreaker`: defaults 5 failures, 60s reset, 10s half-open;
positive config fields override. -/
def newCircuitBreaker (config : Option GateConfig) : CircuitBreaker :=
  let cb : CircuitBreaker :=
    { maxFailures := 5, resetTimeout := 60 * nsPerSec, halfOpenTimeout := 10 * nsPerSec,
      failureCount := 0, lastFailureTime := 0, state := circuitClosed }
  match config with
  | none => cb
  | some c =>
    let cb := if c.maxFailures > 0 then { cb with maxFailures := c.maxFailures } else cb
    let cb := if c.resetTimeout > 0 then { cb with resetTimeout := c.resetTimeout } else cb
    if c.halfOpenTimeout > 0 then { cb with halfOpenTimeout := c.halfOpenTimeout } else cb

/-- `CircuitBreaker.Allow`: in `open`, transition to `half-open` (resetting the
counter) when more than `resetTimeout` has elapsed since the last failure,
otherwise reject with `ErrCircuitOpen`; `closed` and `half-open` admit. -/
def CircuitBreaker.allow (cb : CircuitBreaker) (now : Int) :
    Option GateError × CircuitBreaker :=
  if cb.state = circuitOpen then
    if now - cb.lastFailureTime > cb.resetTimeout then
      (none, { cb with state := circuitHalfOpen, failureCount := 0 })
    else
      (some .circuitOpenErr, cb)
  else
    (none, cb)

/-- `CircuitBreaker.RecordSuccess`: in `half-open` close and reset the counter;
in `closed` reset the counter; in `open` do nothing. -/
def CircuitBreaker.recordSuccess (cb : CircuitBreaker) : CircuitBreaker :=
  if cb.state = circuitHalfOpen then
    { cb with state := circuitClosed, failureCount := 0 }
  else if cb.state = circuitClosed then
    { cb with failureCount := 0 }
  else
    cb

/-- `CircuitBreaker.RecordFailure`: increment the counter and stamp
`lastFailureTime`; `half-open` goes straight to `open`; `closed` opens once the
incremented counter reaches `maxFailures`. -/
def CircuitBreaker.recordFailure (cb : CircuitBreaker) (now : Int) : CircuitBreaker :=
  let failures := cb.failureCount + 1
  let cb' := { cb with failureCount := failures, lastFailureTime := now }
  if cb.state = circuitHalfOpen then
    { cb' with state := circuitOpen }
  else if cb.state = circuitClosed ∧ failures ≥ cb.maxFailures then
    { cb' with state := circuitOpen }
  else
    cb'

/-- `RateLimiter` struct from gate.go (token bucket). -/
structure RateLimiter where
  tokens : Int
  maxTokens : Int
  refillRate : Int
  lastRefill : Int
deriving Repr, DecidableEq

/-- `NewRateLimiter`: defaults 1000 tokens at 100/s; a positive
`MaxRequestsPerSecond` rescales to 10 seconds of burst; the bucket starts
full and `lastRefill` starts at construction time. -/
def newRateLimiter (config : Option GateConfig) (now : Int) : RateLimiter :=
  let rl : RateLimiter := { tokens := 0, maxTokens := 1000, refillRate := 100, lastRefill := now }
  let rl :=
    match config with
    | some c =>
      if c.maxRequestsPerSecond > 0 then
        { rl with maxTokens := c.maxRequestsPerSecond * 10,
                  refillRate := c.maxRequestsPerSecond }
      else rl
    | none => rl
  { rl with tokens := rl.maxTokens }

/-- `RateLimiter.Allow`: lazily refill `floor(elapsed_seconds × refillRate)`
tokens (clamped to `maxTokens`, advancing `lastRefill` only when the refill is
positive), then admit by taking one token or reject with
`ErrRateLimitExceeded`. -/
def RateLimiter.allow (rl : RateLimiter) (now : Int) : Option GateError × RateLimiter :=
  let elapsed := now - rl.lastRefill
  let tokensToAdd := elapsed * rl.refillRate / nsPerSec
  let rl :=
    if tokensToAdd > 0 then
      { rl with tokens := min (rl.tokens + tokensToAdd) rl.maxTokens, lastRefill := now }
    else rl
  if rl.tokens > 0 then
    (none, { rl with tokens := rl.tokens - 1 })
  else
    (some .rateLimitExceeded, rl)

/-- `ConnectionLimiter` struct from gate.go. The `sem` channel exists only for
the `block`/`timeout` backpressure modes; `semCount` is the number of tokens
currently held in it and `semCap` its capacity. -/
structure ConnectionLimiter where
  currentConnections : Int
  maxConnections : Int
  mode : String
  timeout : Int
  semEnabled : Bool
  semCount : Int
  semCap : Int
deriving Repr, DecidableEq

/-- `NewConnectionLimiter`: default capacity 100; the semaphore channel is
created only when the mode is `block` or `timeout`. -/
def newConnectionLimiter (config : Option GateConfig) : ConnectionLimiter :=
  let cl : ConnectionLimiter :=
    { currentConnections := 0, maxConnections := 100, mode := "", timeout := 0,
      semEnabled := false, semCount := 0, semCap := 0 }
  match config with
  | none => cl
  | some c =>
    let cl :=
      if c.maxConcurrentConnections > 0 then
        { cl with maxConnections := c.maxConcurrentConnections }
      else cl
    let cl := { cl with mode := c.backpressureMode, timeout := c.backpressureTimeout }
    if cl.mode = "block" ∨ cl.mode = "timeout" then
      { cl with semEnabled := true, semCap := cl.maxConnections }
    else cl

/-- `ConnectionLimiter.Acquire` (legacy non-blocking path): reject with
`ErrConnectionLimit` at capacity, otherwise increment `currentConnections`. -/
def ConnectionLimiter.acquire (cl : ConnectionLimiter) :
    Option GateError × ConnectionLimiter :=
  if cl.currentConnections ≥ cl.maxConnections then
    (some .connectionLimit, cl)
  else
    (none, { cl with currentConnections := cl.currentConnections + 1 })

/-- `ConnectionLimiter.AcquireWithContext`. Without a semaphore this is the
legacy `Acquire` path. With a semaphore, the fast path takes a token when one
is free. When the semaphore is full the Go code waits on the channel: in this
sequential embedding there is no concurrent releaser, so the `block` mode's
wait resolves only by caller cancellation (`ctx.Err()`), the `timeout` mode's
timer expires (`ErrConnectionLimit`), and any other mode drops immediately
(`ErrConnectionLimit`); no claim in this development exercises the
semaphore-full waiting paths. -/
def ConnectionLimiter.acquireWithContext (cl : ConnectionLimiter) :
    Option GateError × ConnectionLimiter :=
  if ¬ cl.semEnabled then
    cl.acquire
  else if cl.semCount < cl.semCap then
    (none, { cl with semCount := cl.semCount + 1,
                     currentConnections := cl.currentConnections + 1 })
  else if cl.mode = "block" then
    (some .ctxCanceled, cl)
  else
    (some .connectionLimit, cl)

/-- `ConnectionLimiter.Release`: drain one semaphore token when present and
decrement `currentConnections` (unconditionally). -/
def ConnectionLimiter.release (cl : ConnectionLimiter) : ConnectionLimiter :=
  let cl :=
    if cl.semEnabled ∧ cl.semCount > 0 then { cl with semCount := cl.semCount - 1 } else cl
  { cl with currentConnections := cl.currentConnections - 1 }

/-- `ConnectionGate` struct from gate.go. -/
structure ConnectionGate where
  circuitBreaker : CircuitBreaker
  rateLimiter : RateLimiter
  connectionLimiter : ConnectionLimiter
deriving Repr, DecidableEq

/-- `NewConnectionGate`. -/
def newConnectionGate (config : Option GateConfig) (now : Int) : ConnectionGate :=
  { circuitBreaker := newCircuitBreaker config,
    rateLimiter := newRateLimiter config now,
    connectionLimiter := newConnectionLimiter config }

/-- `ConnectionGate.Allow`: circuit breaker, then rate limiter, then
connection limiter; a rejection by the rate limiter or the connection limiter
additionally calls `circuitBreaker.RecordFailure()`. -/
def ConnectionGate.allow (cg : ConnectionGate) (now : Int) :
    Option GateError × ConnectionGate :=
  match cg.circuitBreaker.allow now with
  | (some e, cb') => (some e, { cg with circuitBreaker := cb' })
  | (none, cb') =>
    match cg.rateLimiter.allow now with
    | (some e, rl') =>
      (some e, { cg with circuitBreaker := cb'.recordFailure now, rateLimiter := rl' })
    | (none, rl') =>
      match cg.connectionLimiter.acquireWithContext with
      | (some e, cl') =>
        (some e, { circuitBreaker := cb'.recordFailure now, rateLimiter := rl',
                   connectionLimiter := cl' })
      | (none, cl') =>
        (none, { circuitBreaker := cb', rateLimiter := rl', connectionLimiter := cl' })

/-- `ConnectionGate.Release`. -/
def ConnectionGate.releaseSlot (cg : ConnectionGate) : ConnectionGate :=
  { cg with connectionLimiter := cg.connectionLimiter.release }

/-- `ConnectionGate.RecordSuccess`: records breaker success only — it does
not touch the connection limiter. -/
def ConnectionGate.recordSuccess (cg : ConnectionGate) : ConnectionGate :=
  { cg with circuitBreaker := cg.circuitBreaker.recordSuccess }

/-- `ConnectionGate.RecordFailure`: records breaker failure and releases the
connection slot. -/
def ConnectionGate.recordFailure (cg : ConnectionGate) (now : Int) : ConnectionGate :=
  { cg with circuitBreaker := cg.circuitBreaker.recordFailure now,
            connectionLimiter := cg.connectionLimiter.release }

/-- Outcome of `ExecuteWithGate` (the generic result value is irrelevant to
the properties here; only success/failure matters). -/
inductive GateOutcome where
  | rejected (e : GateError)
  | opFailed
  | ok
deriving Repr, DecidableEq

/-- `ExecuteWithGate`: run `gate.Allow`; on rejection return without invoking
the operation; otherwise the operation's outcome (`opOk`) selects
`RecordFailure` (error path) or `RecordSuccess` (success path). -/
def executeWithGate (gate : ConnectionGate) (now : Int) (opOk : Bool) :
    GateOutcome × ConnectionGate :=
  match gate.allow now with
  | (some e, g') => (.rejected e, g')
  | (none, g') =>
    if opOk then
      (.ok, g'.recordSuccess)
    else
      (.opFailed, g'.recordFailure now)

/- ### cache.go: InMemoryCache (LRU + TTL) -/

/-- `cacheItem` from cache.go. `expireAt = none` models the zero `time.Time`
(no expiry). -/
structure CacheItem (α : Type) where
  key : String
  value : α
  expireAt : Option Int
deriving Repr, DecidableEq

/-- The `stats` block of `InMemoryCache`. -/
structure CacheCounters where
  hits : Nat
  misses : Nat
  evictions : Nat
  expiredCount : Nat
deriving Repr, DecidableEq

/-- `InMemoryCache` from cache.go. `entries` models the doubly linked list
`ll` in order (head = front = most recently used, last = back = LRU victim);
the `items` map is implied: a key is present iff an entry with that key is in
`entries` (keys are kept unique by the operations). The value type is generic
because the Go code stores `interface\x7b\x7d`. -/
structure InMemoryCache (α : Type) where
  entries : List (CacheItem α)
  capacity : Nat
  defaultTTL : Int
  stats : CacheCounters
deriving Repr, DecidableEq

/-- `NewInMemoryCache`: a non-positive capacity falls back to 1024. -/
def mkInMemoryCache (α : Type) (capacity : Int) (defaultTTL : Int) : InMemoryCache α :=
  { entries := [],
    capacity := if capacity ≤ 0 then 1024 else capacity.toNat,
    defaultTTL := defaultTTL,
    stats := { hits := 0, misses := 0, evictions := 0, expiredCount := 0 } }

/-- Lookup of the `items` map: the entry with the given key, if any. -/
def InMemoryCache.findEntry (c : InMemoryCache α) (key : String) : Option (CacheItem α) :=
  c.entries.find? (fun it => it.key = key)

/-- Key membership in the cache structure (presence in the `items` map). -/
def InMemoryCache.present (c : InMemoryCache α) (key : String) : Bool :=
  c.entries.any (fun it => it.key = key)

/-- Remove the entry with the given key from the list (`ll.Remove` +
`delete(items, key)`). -/
def removeEntry (es : List (CacheItem α)) (key : String) : List (CacheItem α) :=
  es.filter (fun it => it.key ≠ key)

/-- `effectiveExpire`: a non-positive ttl falls back to the default; a
non-positive default means no expiry; otherwise the absolute expiry
`now + ttl`. -/
def InMemoryCache.effectiveExpire (c : InMemoryCache α) (ttl now : Int) : Option Int :=
  let ttl := if ttl ≤ 0 then c.defaultTTL else ttl
  if ttl ≤ 0 then none else some (now + ttl)

/-- The expiry test `!ci.expireAt.IsZero() && time.Now().After(ci.expireAt)`. -/
def CacheItem.isExpired (ci : CacheItem α) (now : Int) : Bool :=
  match ci.expireAt with
  | some e => now > e
  | none => false

/-- `InMemoryCache.Get`: miss on absent key; an entry past its absolute expiry
is removed and counted as expired + miss; a live hit is promoted to the MRU
front. -/
def InMemoryCache.get (c : InMemoryCache α) (key : String) (now : Int) :
    Option α × InMemoryCache α :=
  match c.findEntry key with
  | none =>
    (none, { c with stats := { c.stats with misses := c.stats.misses + 1 } })
  | some ci =>
    if ci.isExpired now then
      (none, { c with entries := removeEntry c.entries key,
                      stats := { c.stats with
                                   expiredCount := c.stats.expiredCount + 1,
                                   misses := c.stats.misses + 1 } })
    else
      (some ci.value,
       { c with entries := ci :: removeEntry c.entries key,
                stats := { c.stats with hits := c.stats.hits + 1 } })

/-- `InMemoryCache.Set`: an existing key is updated in place and promoted to
the front; a fresh key first evicts the back (LRU) entry when the cache is at
capacity, then is pushed at the front. -/
def InMemoryCache.set (c : InMemoryCache α) (key : String) (value : α) (ttl now : Int) :
    InMemoryCache α :=
  match c.findEntry key with
  | some _ =>
    { c with entries :=
        ⟨key, value, c.effectiveExpire ttl now⟩ :: removeEntry c.entries key }
  | none =>
    let (es, ev) :=
      if c.entries.length ≥ c.capacity then
        match c.entries.getLast? with
        | some _ => (c.entries.dropLast, 1)
        | none => (c.entries, 0)
      else (c.entries, 0)
    { c with entries := ⟨key, value, c.effectiveExpire ttl now⟩ :: es,
             stats := { c.stats with evictions := c.stats.evictions + ev } }

/-- `InMemoryCache.Delete`. -/
def InMemoryCache.delete (c : InMemoryCache α) (key : String) : InMemoryCache α :=
  { c with entries := removeEntry c.entries key }

/- ### db.go: metrics, prepared-statement cache, facade Exec/Query -/

/-- `DBMetrics` from db.go (durations in ns). -/
structure DBMetrics where
  totalQueries : Int
  successfulQueries : Int
  failedQueries : Int
  totalQueryTime : Int
  slowQueries : Int
  slowQueryThreshold : Int
deriving Repr, DecidableEq

/-- `NewDBMetrics`: default slow threshold 1s, positive config overrides. -/
def newDBMetrics (threshold : Option Int) : DBMetrics :=
  { totalQueries := 0, successfulQueries := 0, failedQueries := 0,
    totalQueryTime := 0, slowQueries := 0,
    slowQueryThreshold :=
      match threshold with
      | some t => if t > 0 then t else 1 * nsPerSec
      | none => 1 * nsPerSec }

/-- `DBMetrics.RecordQuery`: bump `total` and the cumulative time; `failed`
iff an error was passed, else `succeeded`; `slow` iff the duration strictly
exceeds the threshold. -/
def DBMetrics.recordQuery (m : DBMetrics) (duration : Int) (errPresent : Bool) : DBMetrics :=
  let m := { m with totalQueries := m.totalQueries + 1,
                    totalQueryTime := m.totalQueryTime + duration }
  let m :=
    if errPresent then { m with failedQueries := m.failedQueries + 1 }
    else { m with successfulQueries := m.successfulQueries + 1 }
  if duration > m.slowQueryThreshold then
    { m with slowQueries := m.slowQueries + 1 }
  else m

/-- The gate + metrics state of `AdvancedDB` that `Exec`/`Query` touch. -/
structure AdvancedDBState where
  gate : ConnectionGate
  metrics : DBMetrics
deriving Repr, DecidableEq

/-- `AdvancedDB.Exec`: wraps the (retrying) operation in `ExecuteWithGate`;
the deferred metrics call is `RecordQuery(time.Since(start), nil)` — the error
argument is the literal `nil`, whatever the operation returned. `duration` is
the measured wall time of the call and `opOk` the operation's outcome. -/
def AdvancedDB.exec (s : AdvancedDBState) (now duration : Int) (opOk : Bool) :
    GateOutcome × AdvancedDBState :=
  let (out, gate') := executeWithGate s.gate now opOk
  (out, { gate := gate', metrics := s.metrics.recordQuery duration false })

/-- `AdvancedDB.Query`: identical bracketing to `Exec` — gate around the
retrying query, deferred `RecordQuery(time.Since(start), nil)`. -/
def AdvancedDB.query (s : AdvancedDBState) (now duration : Int) (opOk : Bool) :
    GateOutcome × AdvancedDBState :=
  let (out, gate') := executeWithGate s.gate now opOk
  (out, { gate := gate', metrics := s.metrics.recordQuery duration false })

/-- `PreparedStatementCache` from db.go; compiled `*sql.Stmt` handles are
modelled as numeric identifiers. The Go `map` is modelled as an association
list with unique keys. -/
structure PreparedStatementCache where
  cache : List (String × Nat)
  maxSize : Nat
deriving Repr, DecidableEq

/-- `NewPreparedStatementCache`: default capacity 100, positive config
overrides. -/
def newPreparedStatementCache (size : Option Int) : PreparedStatementCache :=
  { cache := [],
    maxSize :=
      match size with
      | some n => if n > 0 then n.toNat else 100
      | none => 100 }

/-- `PreparedStatementCache.Put`: when the map is at capacity, delete one
arbitrary entry (Go ranges over the map and breaks after the first key; the
model picks the head of the association list) WITHOUT closing its handle, then
store the statement. The returned list is the set of handles closed by the
call — always empty. -/
def PreparedStatementCache.put (psc : PreparedStatementCache) (query : String) (stmt : Nat) :
    PreparedStatementCache × List Nat :=
  let cache :=
    if psc.cache.length ≥ psc.maxSize then
      match psc.cache with
      | [] => psc.cache
      | _ :: rest => rest
    else psc.cache
  let cache := (query, stmt) :: cache.filter (fun kv => kv.1 ≠ query)
  ({ psc with cache := cache }, [])

/-- `PreparedStatementCache.Clear`: close every cached handle and reset the
map. The returned list is the set of handles closed by the call. -/
def PreparedStatementCache.clear (psc : PreparedStatementCache) :
    PreparedStatementCache × List Nat :=
  ({ psc with cache := [] }, psc.cache.map (fun kv => kv.2))

/- ### tcp_protocol.go: wire messages and JSON round trip -/

/-- A Go dynamic value (`interface\x7b\x7d`) holding one of the opaque scalar
argument shapes of the data model: int64, float64, string, bool, nil, or a
byte sequence. Floats are modelled as rationals (no claim exercises float
rounding). -/
inductive GoVal where
  | gInt (n : Int)
  | gFloat (q : ℚ)
  | gStr (s : String)
  | gBool (b : Bool)
  | gNull
  | gBytes (bs : List Nat)
deriving Repr, DecidableEq

/-- A JSON scalar as it appears on the wire inside the `args` array. -/
inductive JScalar where
  | num (q : ℚ)
  | str (s : String)
  | bool (b : Bool)
  | null
deriving Repr, DecidableEq

/-- The standard base64 alphabet used by `encoding/json` for `[]byte`. -/
def base64Alphabet : List Char :=
  "ABCDEFGHIJKLMNOPQRSTUVWXYZabcdefghijklmnopqrstuvwxyz0123456789+/".toList

/-- The base64 digit for a 6-bit group. -/
def base64Char (n : Nat) : Char := base64Alphabet.getD n '='

/-- Standard base64 with padding (how `json.Marshal` renders `[]byte`). -/
def base64Encode : List Nat → String
  | [] => ""
  | [b1] =>
    String.mk [base64Char (b1 / 4), base64Char (b1 % 4 * 16), '=', '=']
  | [b1, b2] =>
    String.mk [base64Char (b1 / 4), base64Char (b1 % 4 * 16 + b2 / 16),
               base64Char (b2 % 16 * 4), '=']
  | b1 :: b2 :: b3 :: rest =>
    String.mk [base64Char (b1 / 4), base64Char (b1 % 4 * 16 + b2 / 16),
               base64Char (b2 % 16 * 4 + b3 / 64), base64Char (b3 % 64)]
      ++ base64Encode rest

/-- `json.Marshal` of one argument value: integers and floats both become
JSON numbers, byte sequences become base64 strings. -/
def GoVal.encodeScalar : GoVal → JScalar
  | .gInt n => .num (n : ℚ)
  | .gFloat q => .num q
  | .gStr s => .str s
  | .gBool b => .bool b
  | .gNull => .null
  | .gBytes bs => .str (base64Encode bs)

/-- `json.Unmarshal` of a JSON scalar into `interface\x7b\x7d`: every JSON
number becomes a `float64`, every JSON string a `string`. -/
def JScalar.decodeScalar : JScalar → GoVal
  | .num q => .gFloat q
  | .str s => .gStr s
  | .bool b => .gBool b
  | .null => .gNull

/-- Modelled from the spec: the `TCPMessage` request frame. The struct in
src/tcp_protocol.go has `Type`, `ID`, `Query`, `Args`, `Payload`, but the
server in src/tcp_server.go also reads `msg.IdempotencyKey`, and fills
`msg.RequestSize` and `msg.ClientIP` after decoding; the version of the
struct carrying those three fields is not in src/. Per the spec's data model
the request record additionally holds an optional idempotency key (JSON field
`idempotency_key`) and the implementation-filled request byte size and client
IP, which are not wire fields. `payload` is an opaque raw-JSON blob
(`json.RawMessage`), modelled as an uninterpreted string. -/
structure TCPMessage where
  type : String
  id : String
  query : String
  args : List GoVal
  idempotencyKey : String
  payload : Option String
  requestSize : Int
  clientIP : String
deriving Repr, DecidableEq

/-- `TCPResponse` from tcp_protocol.go; `data` is an opaque raw-JSON blob. -/
structure TCPResponse where
  id : String
  success : Bool
  error : String
  data : Option String
deriving Repr, DecidableEq

/-- The JSON object produced for a request frame: `omitempty` fields are
`none` when absent. -/
structure WireRequest where
  wtype : String
  wid : String
  wquery : Option String
  wargs : Option (List JScalar)
  widempotencyKey : Option String
  wpayload : Option String
deriving Repr, DecidableEq

/-- The JSON object produced for a response frame. -/
structure WireResponse where
  wid : String
  wsuccess : Bool
  werror : Option String
  wdata : Option String
deriving Repr, DecidableEq

/-- `EncodeTCPMessage` (`json.Marshal` of the struct): `query`, `args`,
`idempotency_key` and `payload` carry `omitempty`; `RequestSize`/`ClientIP`
are not wire fields. -/
def encodeTCPMessage (m : TCPMessage) : WireRequest :=
  { wtype := m.type,
    wid := m.id,
    wquery := if m.query = "" then none else some m.query,
    wargs := if m.args = [] then none else some (m.args.map GoVal.encodeScalar),
    widempotencyKey := if m.idempotencyKey = "" then none else some m.idempotencyKey,
    wpayload := m.payload }

/-- `DecodeTCPMessage` (`json.Unmarshal` into the struct): absent `omitempty`
fields decode to zero values; every `args` element lands in an
`interface\x7b\x7d` via `JScalar.decodeScalar`; the implementation-filled
fields are left at their zero values. -/
def decodeTCPMessage (w : WireRequest) : TCPMessage :=
  { type := w.wtype,
    id := w.wid,
    query := w.wquery.getD "",
    args := (w.wargs.getD []).map JScalar.decodeScalar,
    idempotencyKey := w.widempotencyKey.getD "",
    payload := w.wpayload,
    requestSize := 0,
    clientIP := "" }

/-- `EncodeTCPResponse`. -/
def encodeTCPResponse (r : TCPResponse) : WireResponse :=
  { wid := r.id,
    wsuccess := r.success,
    werror := if r.error = "" then none else some r.error,
    wdata := r.data }

/-- `DecodeTCPResponse`. -/
def decodeTCPResponse (w : WireResponse) : TCPResponse :=
  { id := w.wid,
    success := w.wsuccess,
    error := w.werror.getD "",
    data := w.wdata }

/-- A request frame as transported on the wire: the implementation-filled
fields (`RequestSize`, `ClientIP`) are at their zero values, since they are
not part of the JSON object. -/
def TCPMessage.wireFrame (m : TCPMessage) : Prop :=
  m.requestSize = 0 ∧ m.clientIP = ""

/-- An argument value whose Go dynamic type survives a JSON round trip:
floats, strings, bools and nil (ints come back as floats, byte sequences as
base64 strings). -/
def GoVal.jsonStable : GoVal → Prop
  | .gFloat _ => True
  | .gStr _ => True
  | .gBool _ => True
  | .gNull => True
  | .gInt _ => False
  | .gBytes _ => False

instance : DecidablePred GoVal.jsonStable := by
  intro v
  cases v <;> simp only [GoVal.jsonStable] <;> infer_instance

/- ### tcp_server.go: per-IP admission, per-IP rate limit, idempotency -/

/-- Association-list lookup, modelling a Go map read. -/
def mapLookup (m : List (String × β)) (k : String) : Option β :=
  (m.find? (fun kv => kv.1 = k)).map (fun kv => kv.2)

/-- Association-list update, modelling a Go map write. -/
def mapStore (m : List (String × β)) (k : String) (v : β) : List (String × β) :=
  (k, v) :: m.filter (fun kv => kv.1 ≠ k)

/-- `TCPServerConfig` from tcp_server.go (sizes/durations as `Int`). -/
structure TCPServerConfig where
  enableIdempotency : Bool
  enableDDoSProtection : Bool
  maxRequestSize : Int
  maxConnectionsPerIP : Int
  rateLimitPerIP : Int
  blacklistedIPs : List String
  whitelistedIPs : List String
deriving Repr, DecidableEq

/-- The mutable state of a `TCPServer` relevant to admission and
idempotency: the per-IP connection counter, the per-IP last-request
timestamps, the blacklist/whitelist sets and the idempotency cache (present
iff idempotency is enabled). -/
structure TCPServerState where
  config : TCPServerConfig
  ipConnections : List (String × Int)
  ipRateLimits : List (String × Int)
  blacklistMap : List String
  whitelistMap : List String
  idemCache : Option (InMemoryCache TCPResponse)
deriving Repr, DecidableEq

/-- `NewTCPServer`: copies the black/white lists into maps and, when
idempotency is enabled, creates the idempotency cache with capacity 10000 and
default TTL 300 s. -/
def newTCPServer (config : TCPServerConfig) : TCPServerState :=
  { config := config,
    ipConnections := [],
    ipRateLimits := [],
    blacklistMap := config.blacklistedIPs,
    whitelistMap := config.whitelistedIPs,
    idemCache :=
      if config.enableIdempotency then
        some (mkInMemoryCache TCPResponse 10000 (300 * nsPerSec))
      else none }

/-- The per-IP connection count (a Go map read defaults to 0). -/
def TCPServerState.ipCount (s : TCPServerState) (ip : String) : Int :=
  (mapLookup s.ipConnections ip).getD 0

/-- `TCPServer.allowConnection`: reject blacklisted IPs; with a non-empty
whitelist reject IPs outside it; with a positive `MaxConnectionsPerIP` reject
once the per-IP count has reached the limit, otherwise increment the count
for the lifetime of the connection. -/
def TCPServerState.allowConnection (s : TCPServerState) (ip : String) :
    Bool × TCPServerState :=
  if ip ∈ s.blacklistMap then
    (false, s)
  else if s.whitelistMap ≠ [] ∧ ip ∉ s.whitelistMap then
    (false, s)
  else if s.config.maxConnectionsPerIP > 0 then
    if s.ipCount ip ≥ s.config.maxConnectionsPerIP then
      (false, s)
    else
      (true, { s with ipConnections := mapStore s.ipConnections ip (s.ipCount ip + 1) })
  else
    (true, s)

/-- `TCPServer.checkRateLimit`: disabled for a non-positive limit; the first
request from an IP is admitted; later requests are rejected when less than
one second has passed since the previous admitted request. -/
def TCPServerState.checkRateLimit (s : TCPServerState) (ip : String) (now : Int) :
    Bool × TCPServerState :=
  if s.config.rateLimitPerIP ≤ 0 then
    (true, s)
  else
    match mapLookup s.ipRateLimits ip with
    | none => (true, { s with ipRateLimits := mapStore s.ipRateLimits ip now })
    | some lastRequest =>
      if now - lastRequest < nsPerSec then
        (false, s)
      else
        (true, { s with ipRateLimits := mapStore s.ipRateLimits ip now })

/-- `TCPServer.checkIdempotency`: consult the idempotency cache (a `Get`,
which promotes a hit to MRU and updates the hit/miss counters). The Go type
assertion on the cached `interface\x7b\x7d` value always succeeds in this
typed model. -/
def TCPServerState.checkIdempotency (s : TCPServerState) (msg : TCPMessage) (now : Int) :
    Option TCPResponse × TCPServerState :=
  match s.idemCache with
  | none => (none, s)
  | some c =>
    if msg.idempotencyKey = "" then (none, s)
    else
      let (hit, c') := c.get msg.idempotencyKey now
      (hit, { s with idemCache := some c' })

/-- `TCPServer.storeIdempotency`: store the response under the request's
idempotency key with a 300 s TTL. -/
def TCPServerState.storeIdempotency (s : TCPServerState) (msg : TCPMessage)
    (response : TCPResponse) (now : Int) : TCPServerState :=
  match s.idemCache with
  | none => s
  | some c =>
    if msg.idempotencyKey = "" then s
    else { s with idemCache := some (c.set msg.idempotencyKey response (300 * nsPerSec) now) }

/-- `NewErrorResponse`. -/
def newErrorResponse (id : String) (err : String) : TCPResponse :=
  { id := id, success := false, error := err, data := none }

/-- The `handlePing` payload `map[string]string\x7b"status": "ok"\x7d` as
marshalled JSON. -/
def pingData : String := "\x7b\"status\":\"ok\"\x7d"

/-- Modelled from the spec: the response-returning bodies of
`handleExec`/`handleQuery` and the runtime behind `handleStats`/
`handleMetrics` are not in src/ (the `handleExec`/`handleQuery` definitions
in src/tcp_server.go write to the connection and return nothing, while
`handleMessage` binds their result). Per the spec, the EXEC/QUERY handlers
process the request through the facade and produce exactly one response —
success with a payload, or an error frame —, and STATS/METRICS return
snapshot payloads. The oracle abstracts those outcomes; `handleMessage`
below (which IS in src/) decides what is emitted and what is stored. -/
structure RuntimeOracle where
  execResp : TCPMessage → TCPResponse
  queryResp : TCPMessage → TCPResponse
  statsData : String
  metricsData : String

/-- `TCPServer.handleMessage`: request-size check, per-IP rate check,
idempotency lookup, then dispatch by kind. Exactly the EXEC and QUERY
branches store their response in the idempotency cache; PING, STATS, METRICS
and the default (unknown-kind) branch do not. `CLOSE` has no case in the
switch and falls through to the default branch. Returns the emitted
responses, the new state, and whether the database facade was invoked. -/
def TCPServerState.handleMessage (s : TCPServerState) (oracle : RuntimeOracle)
    (msg : TCPMessage) (now : Int) : List TCPResponse × TCPServerState × Bool :=
  if s.config.enableDDoSProtection ∧ s.config.maxRequestSize > 0 ∧
      msg.requestSize > s.config.maxRequestSize then
    ([newErrorResponse msg.id ("request too large: " ++ toString msg.requestSize ++ " bytes")],
     s, false)
  else
    let rateChecked :=
      if s.config.enableDDoSProtection then s.checkRateLimit msg.clientIP now else (true, s)
    if ¬ rateChecked.1 then
      ([newErrorResponse msg.id ("rate limit exceeded for IP: " ++ msg.clientIP)],
       rateChecked.2, false)
    else
      let s1 := rateChecked.2
      let idemChecked :=
        if s1.config.enableIdempotency ∧ msg.idempotencyKey ≠ "" then
          s1.checkIdempotency msg now
        else (none, s1)
      match idemChecked with
      | (some cached, s2) => ([cached], s2, false)
      | (none, s2) =>
        if msg.type = "PING" then
          ([{ id := msg.id, success := true, error := "", data := some pingData }], s2, false)
        else if msg.type = "EXEC" then
          let response := oracle.execResp msg
          let s3 :=
            if s2.config.enableIdempotency ∧ msg.idempotencyKey ≠ "" then
              s2.storeIdempotency msg response now
            else s2
          ([response], s3, true)
        else if msg.type = "QUERY" then
          let response := oracle.queryResp msg
          let s3 :=
            if s2.config.enableIdempotency ∧ msg.idempotencyKey ≠ "" then
              s2.storeIdempotency msg response now
            else s2
          ([response], s3, true)
        else if msg.type = "STATS" then
          ([{ id := msg.id, success := true, error := "", data := some oracle.statsData }],
           s2, false)
        else if msg.type = "METRICS" then
          ([{ id := msg.id, success := true, error := "", data := some oracle.metricsData }],
           s2, false)
        else
          ([newErrorResponse msg.id ("unknown message type: " ++ msg.type)], s2, false)

/-- A connection-lifecycle event as seen by the per-IP counter: `handleClient`
runs `allowConnection` when a connection arrives (DDoS protection enabled);
its exit path (`defer conn.Close()` / `defer s.clients.Delete(clientID)`)
does not touch `ipConnections`, so a disconnect leaves the state unchanged. -/
inductive ServerEvent where
  | connect (ip : String)
  | disconnect (ip : String)
deriving Repr, DecidableEq

/-- One lifecycle step of the per-IP admission state. -/
def serverStep (s : TCPServerState) : ServerEvent → TCPServerState
  | .connect ip => (s.allowConnection ip).2
  | .disconnect _ => s

/-- A whole workload of connects and disconnects. -/
def serverRun (s : TCPServerState) (evs : List ServerEvent) : TCPServerState :=
  evs.foldl serverStep s

/- ### Workload iterators and concrete fixtures used by the theorems -/

/-- Iterate `ConnectionGate.allow` (discarding results) at a fixed time. -/
def gateAllowIter (g : ConnectionGate) (now : Int) : Nat → ConnectionGate
  | 0 => g
  | n + 1 => gateAllowIter (g.allow now).2 now n

/-- A sequence of `RecordFailure` calls at the given times. -/
def recordFailures (cb : CircuitBreaker) (ts : List Int) : CircuitBreaker :=
  ts.foldl CircuitBreaker.recordFailure cb

/-- Insert a batch of key/value pairs, in order, with one `Set` each. -/
def setAll (c : InMemoryCache α) (kvs : List (String × α)) (ttl now : Int) :
    InMemoryCache α :=
  kvs.foldl (fun c kv => c.set kv.1 kv.2 ttl now) c

/-- A fresh `AdvancedDB` state with the default gate and metrics. -/
def defaultAdvancedDBState : AdvancedDBState :=
  { gate := newConnectionGate none 0, metrics := newDBMetrics none }

/-- A concrete runtime oracle used to evaluate the server model on closed
inputs. -/
def constOracle : RuntimeOracle :=
  { execResp := fun m => { id := m.id, success := true, error := "", data := some "dx" },
    queryResp := fun m => { id := m.id, success := true, error := "", data := some "dq" },
    statsData := "ds",
    metricsData := "dm" }

/-- A minimal EXEC request carrying the given idempotency key (only the key
matters to `storeIdempotency`). -/
def msgWithKey (k : String) : TCPMessage :=
  { type := "EXEC", id := "r", query := "q", args := [], idempotencyKey := k,
    payload := none, requestSize := 0, clientIP := "" }

/-- Store a batch of responses in the idempotency cache, one
`storeIdempotency` per key. -/
def storeAllIdem (s : TCPServerState) (resps : List (String × TCPResponse)) (now : Int) :
    TCPServerState :=
  resps.foldl (fun s kr => s.storeIdempotency (msgWithKey kr.1) kr.2 now) s

/-- A server configuration with idempotency on and everything else off. -/
def idemOnlyConfig : TCPServerConfig :=
  { enableIdempotency := true, enableDDoSProtection := false, maxRequestSize := 0,
    maxConnectionsPerIP := 0, rateLimitPerIP := 0, blacklistedIPs := [],
    whitelistedIPs := [] }

/-- The cache item written for a fresh key by `InMemoryCache.Set`. -/
def freshItem (c : InMemoryCache α) (ttl now : Int) (kv : String × α) : CacheItem α :=
  ⟨kv.1, kv.2, c.effectiveExpire ttl now⟩

/-- A concrete open breaker (2 failures recorded, last one at t = 50 ns,
reset timeout 100 ns). -/
def cbOpenFixture : CircuitBreaker :=
  { maxFailures := 2, resetTimeout := 100, halfOpenTimeout := 10,
    failureCount := 2, lastFailureTime := 50, state := circuitOpen }

/-- A default-configured gate whose breaker is `cbOpenFixture`. -/
def gateOpenFixture : ConnectionGate :=
  { circuitBreaker := cbOpenFixture, rateLimiter := newRateLimiter none 0,
    connectionLimiter := newConnectionLimiter none }

/-- `n` pairwise-distinct non-empty idempotency keys (`"a"`, `"aa"`, ...),
each mapped to a fixed response. -/
def witnessKeys (n : Nat) : List (String × TCPResponse) :=
  (List.range n).map
    (fun i => (String.mk (List.replicate (i + 1) 'a'), newErrorResponse "w" "e"))

/-- A server configuration with DDoS protection on and at most one
connection per IP. -/
def ddosOneConnConfig : TCPServerConfig :=
  { enableIdempotency := false, enableDDoSProtection := true, maxRequestSize := 0,
    maxConnectionsPerIP := 1, rateLimitPerIP := 0, blacklistedIPs := [],
    whitelistedIPs := [] }

/- ### Shared helper lemmas -/

/-- `RecordFailure` always increments the failure counter by one. -/
theorem recordFailure_failureCount (cb : CircuitBreaker) (now : Int) :
    (cb.recordFailure now).failureCount = cb.failureCount + 1 := by
  simp only [CircuitBreaker.recordFailure]
  split
  · rfl
  · split <;> rfl

/-- `RecordFailure` never changes the configured failure threshold. -/
theorem recordFailure_maxFailures (cb : CircuitBreaker) (now : Int) :
    (cb.recordFailure now).maxFailures = cb.maxFailures := by
  simp only [CircuitBreaker.recordFailure]
  split
  · rfl
  · split <;> rfl

/-- `RecordFailure` keeps an open breaker open. -/
theorem recordFailure_open (cb : CircuitBreaker) (now : Int)
    (h : cb.state = circuitOpen) : (cb.recordFailure now).state = circuitOpen := by
  simp only [CircuitBreaker.recordFailure]
  split
  · rfl
  · split
    · rfl
    · exact h

/-- A run of `RecordFailure` calls keeps an open breaker open. -/
theorem recordFailures_open (ts : List Int) (cb : CircuitBreaker)
    (h : cb.state = circuitOpen) : (recordFailures cb ts).state = circuitOpen := by
  induction ts generalizing cb with
  | nil => exact h
  | cons t ts ih => exact ih _ (recordFailure_open cb t h)

/-- Filtering out the entries of one key does not change the result of a
lookup for a different key. -/
theorem find?_filter_ne (m : List (String × β)) (k k' : String) (h : k' ≠ k) :
    (m.filter (fun kv => kv.1 ≠ k)).find? (fun kv => kv.1 = k')
      = m.find? (fun kv => kv.1 = k') := by
  induction m with
  | nil => rfl
  | cons kv m ih =>
    by_cases hkv : kv.1 = k
    · have hne : ¬ (kv.1 = k') := by rw [hkv]; exact fun hh => h hh.symm
      rw [List.filter_cons, if_neg (by simp [hkv]), ih,
          List.find?_cons_of_neg _ (by simpa using hne)]
    · by_cases hk' : kv.1 = k'
      · rw [List.filter_cons, if_pos (by simp [hkv]),
            List.find?_cons_of_pos _ (by simpa using hk'),
            List.find?_cons_of_pos _ (by simpa using hk')]
      · rw [List.filter_cons, if_pos (by simp [hkv]),
            List.find?_cons_of_neg _ (by simpa using hk'),
            List.find?_cons_of_neg _ (by simpa using hk'), ih]

/-- A map write is visible to a subsequent read of the same key and invisible
to reads of other keys. -/
theorem mapStore_lookup (m : List (String × β)) (k k' : String) (v : β) :
    mapLookup (mapStore m k v) k' = if k' = k then some v else mapLookup m k' := by
  by_cases hk : k' = k
  · subst hk
    simp [mapLookup, mapStore, List.find?_cons]
  · have hkk : ¬ (k = k') := fun hh => hk hh.symm
    rw [if_neg hk]
    simp only [mapLookup, mapStore]
    rw [List.find?_cons_of_neg _ (by simpa using hkk), find?_filter_ne m k k' hk]

/-- A key reported absent by `present` is not found by `findEntry`. -/
theorem findEntry_of_not_present (c : InMemoryCache α) (k : String)
    (h : c.present k = false) : c.findEntry k = none := by
  rw [InMemoryCache.findEntry, List.find?_eq_none]
  intro x hx
  simp only [InMemoryCache.present, List.any_eq_false] at h
  exact h x hx

/-- `Get` on an absent key reports a miss. -/
theorem get_not_present (c : InMemoryCache α) (k : String) (now : Int)
    (h : c.present k = false) : (c.get k now).1 = none := by
  simp [InMemoryCache.get, findEntry_of_not_present c k h]

/-- Presence is membership of the key among the entry keys. -/
theorem present_eq_true_iff (c : InMemoryCache α) (k : String) :
    c.present k = true ↔ k ∈ c.entries.map CacheItem.key := by
  simp [InMemoryCache.present, List.any_eq_true, List.mem_map, decide_eq_true_eq]

/-- `Set` never changes the configured capacity. -/
theorem set_capacity (c : InMemoryCache α) (k : String) (v : α) (ttl now : Int) :
    (c.set k v ttl now).capacity = c.capacity := by
  cases h : c.findEntry k <;> simp [InMemoryCache.set, h]

/-- `Set` never changes the configured default TTL. -/
theorem set_defaultTTL (c : InMemoryCache α) (k : String) (v : α) (ttl now : Int) :
    (c.set k v ttl now).defaultTTL = c.defaultTTL := by
  cases h : c.findEntry k <;> simp [InMemoryCache.set, h]

/-- `Set` of a fresh key: the new item goes to the MRU front; when the cache
is at (or beyond) capacity the back (LRU) entry is dropped first. -/
theorem set_fresh_entries (c : InMemoryCache α) (k : String) (v : α) (ttl now : Int)
    (h : c.present k = false) :
    (c.set k v ttl now).entries =
      ⟨k, v, c.effectiveExpire ttl now⟩ ::
        (if c.capacity ≤ c.entries.length then c.entries.dropLast else c.entries) := by
  simp only [InMemoryCache.set, findEntry_of_not_present c k h]
  by_cases hfull : c.capacity ≤ c.entries.length
  · cases hlast : c.entries.getLast? with
    | none =>
      have hnil : c.entries = [] := by
        cases hes : c.entries with
        | nil => rfl
        | cons e es => rw [hes] at hlast; simp at hlast
      simp [hnil, hlast, hfull]
    | some last => simp [hlast, hfull]
  · simp [hfull]

/-- Taking `n` of an already-`n`-truncated suffix is the same as truncating
the whole concatenation. -/
theorem take_append_take (xs l : List γ) (n : Nat) :
    (xs ++ l.take n).take n = (xs ++ l).take n := by
  rw [List.take_append_eq_append_take, List.take_append_eq_append_take, List.take_take,
      Nat.min_eq_left (Nat.sub_le n xs.length)]

/-- Batch insertion of fresh, pairwise-distinct keys: the entry list becomes
the reversed batch in front of the old entries, truncated to the capacity —
each step pushes at the front and drops the LRU back once full. -/
theorem setAll_fresh_entries (kvs : List (String × α)) (c : InMemoryCache α)
    (ttl now : Int)
    (hcap : 1 ≤ c.capacity)
    (hlen : c.entries.length ≤ c.capacity)
    (hfresh : ∀ kv ∈ kvs, c.present kv.1 = false)
    (hnodup : (kvs.map Prod.fst).Nodup) :
    (setAll c kvs ttl now).entries
      = ((kvs.map (freshItem c ttl now)).reverse ++ c.entries).take c.capacity ∧
    (setAll c kvs ttl now).capacity = c.capacity ∧
    (setAll c kvs ttl now).defaultTTL = c.defaultTTL := by
  induction kvs generalizing c with
  | nil =>
    refine ⟨?_, rfl, rfl⟩
    simp [setAll, List.take_of_length_le hlen]
  | cons kv kvs ih =>
    obtain ⟨m, hm⟩ : ∃ m, c.capacity = m + 1 := ⟨c.capacity - 1, by omega⟩
    have hhead : c.present kv.1 = false := hfresh kv (List.mem_cons_self _ _)
    have hstep : (c.set kv.1 kv.2 ttl now).entries
        = (freshItem c ttl now kv :: c.entries).take c.capacity := by
      rw [set_fresh_entries c kv.1 kv.2 ttl now hhead]
      by_cases hfull : c.capacity ≤ c.entries.length
      · have hlen' : c.entries.length = m + 1 := by omega
        rw [if_pos hfull, hm, List.take_succ_cons, List.dropLast_eq_take, hlen']
        rfl
      · rw [if_neg hfull, hm, List.take_succ_cons,
            List.take_of_length_le (by omega)]
        rfl
    have hcap1 : (c.set kv.1 kv.2 ttl now).capacity = c.capacity :=
      set_capacity c kv.1 kv.2 ttl now
    have httl1 : (c.set kv.1 kv.2 ttl now).defaultTTL = c.defaultTTL :=
      set_defaultTTL c kv.1 kv.2 ttl now
    have hexp : ∀ kv' : String × α,
        freshItem (c.set kv.1 kv.2 ttl now) ttl now kv' = freshItem c ttl now kv' := by
      intro kv'
      simp [freshItem, InMemoryCache.effectiveExpire, httl1]
    have hlen1 : (c.set kv.1 kv.2 ttl now).entries.length
        ≤ (c.set kv.1 kv.2 ttl now).capacity := by
      rw [hstep, hcap1, List.length_take]
      exact Nat.min_le_left _ _
    have hfresh1 : ∀ kv' ∈ kvs, (c.set kv.1 kv.2 ttl now).present kv'.1 = false := by
      intro kv' hkv'
      have hne : kv'.1 ≠ kv.1 := by
        intro hcontra
        have := hnodup
        simp only [List.map_cons, List.nodup_cons] at this
        exact this.1 (hcontra ▸ List.mem_map_of_mem Prod.fst hkv')
      have hnotin : kv'.1 ∉ c.entries.map CacheItem.key := by
        intro hmem
        have := hfresh kv' (List.mem_cons_of_mem _ hkv')
        rw [← Bool.not_eq_true] at this
        exact this ((present_eq_true_iff c kv'.1).mpr hmem)
      rw [← Bool.not_eq_true]
      intro hpres
      have hmem := (present_eq_true_iff _ kv'.1).mp hpres
      rw [hstep] at hmem
      have hmem' := List.map_subset CacheItem.key (List.take_subset _ _) hmem
      simp only [List.map_cons, List.mem_cons] at hmem'
      rcases hmem' with h | h
      · exact hne h
      · exact hnotin h
    have hnodup1 : (kvs.map Prod.fst).Nodup := by
      simp only [List.map_cons, List.nodup_cons] at hnodup
      exact hnodup.2
    obtain ⟨he, hc2, ht2⟩ := ih (c.set kv.1 kv.2 ttl now)
      (by rw [hcap1]; exact hcap) hlen1 hfresh1 hnodup1
    refine ⟨?_, by rwa [hcap1] at hc2, by rwa [httl1] at ht2⟩
    have hsa : setAll c (kv :: kvs) ttl now = setAll (c.set kv.1 kv.2 ttl now) kvs ttl now := rfl
    have hmapeq : kvs.map (freshItem (c.set kv.1 kv.2 ttl now) ttl now)
        = kvs.map (freshItem c ttl now) := by
      apply List.map_congr_left
      intro kv' _
      exact hexp kv'
    rw [hsa, he, hcap1, hstep, hmapeq, take_append_take]
    congr 1
    simp [List.reverse_cons, List.append_assoc]
theorem recordFailures_opens (ts : List Int) (cb : CircuitBreaker)
    (hclosed : cb.state = circuitClosed)
    (hcount : cb.maxFailures ≤ cb.failureCount + (ts.length : Int))
    (hpos : 1 ≤ ts.length) :
    (recordFailures cb ts).state = circuitOpen := by
  induction ts generalizing cb with
  | nil => simp at hpos
  | cons t ts ih =>
    have hnothalf : ¬ (cb.state = circuitHalfOpen) := by
      rw [hclosed]; decide
    by_cases hmax : cb.maxFailures ≤ cb.failureCount + 1
    · have hopen : (cb.recordFailure t).state = circuitOpen := by
        simp only [CircuitBreaker.recordFailure]
        rw [if_neg hnothalf, if_pos ⟨hclosed, hmax⟩]
      exact recordFailures_open ts _ hopen
    · have hstate : (cb.recordFailure t).state = circuitClosed := by
        simp only [CircuitBreaker.recordFailure]
        rw [if_neg hnothalf, if_neg (fun hc => hmax hc.2)]
        exact hclosed
      have hcnt : (cb.recordFailure t).failureCount = cb.failureCount + 1 :=
        recordFailure_failureCount cb t
      have hmf : (cb.recordFailure t).maxFailures = cb.maxFailures :=
        recordFailure_maxFailures cb t
      have hlen : (1 : Nat) ≤ ts.length := by
        simp only [List.length_cons] at hcount
        push_cast at hcount
        by_contra hzero
        have : ts.length = 0 := by omega
        rw [this] at hcount
        simp at hcount
        omega
      have := ih (cb.recordFailure t) hstate
        (by rw [hcnt, hmf]; simp only [List.length_cons] at hcount; push_cast at hcount ⊢; omega)
        hlen
      simpa [recordFailures] using this

/- ### C1 -/

/-- C1: the claim says the gate's release step runs exactly once on every
exit path of `ExecuteWithGate`, leaving `in_flight = 0` after any completed
workload. The code's success path calls only `RecordSuccess`, which never
releases the connection slot, so a single admitted operation that succeeds
leaves the in-flight counter at 1; only the operation-error path (through
`RecordFailure`) releases. -/
theorem C1_success_path_never_releases :
    (executeWithGate (newConnectionGate none 0) 0 true).1 = GateOutcome.ok ∧
    (executeWithGate (newConnectionGate none 0) 0 true).2.connectionLimiter.currentConnections
      = 1 ∧
    (executeWithGate (newConnectionGate none 0) 0 false).1 = GateOutcome.opFailed ∧
    (executeWithGate (newConnectionGate none 0) 0 false).2.connectionLimiter.currentConnections
      = 0 := by
  decide

/- ### C2 -/

/-- C2 counterexample: on a fresh gate configured for 1 request/second
(bucket of 10 tokens), the 11th immediate admission attempt is rejected by
the rate limiter, and that rejection moves the breaker's failure counter from
0 to 1 — contradicting the claim that limiter rejections leave the failure
counter unchanged. -/
theorem C2_counterexample :
    (gateAllowIter (newConnectionGate (some { maxRequestsPerSecond := 1 }) 0) 0
        10).circuitBreaker.failureCount = 0 ∧
    ((gateAllowIter (newConnectionGate (some { maxRequestsPerSecond := 1 }) 0) 0
        10).allow 0).1 = some GateError.rateLimitExceeded ∧
    ((gateAllowIter (newConnectionGate (some { maxRequestsPerSecond := 1 }) 0) 0
        10).allow 0).2.circuitBreaker.failureCount = 1 := by
  decide

/-- C2 amended: a rejection by the circuit breaker itself leaves the gate
(and in particular the failure counter) unchanged, but a rejection by the
rate limiter or by the concurrency limiter increments the breaker's failure
counter by one — `ConnectionGate.Allow` calls `RecordFailure` on those two
rejection paths. -/
theorem C2_amended (g : ConnectionGate) (now : Int) :
    (g.circuitBreaker.state = circuitOpen →
       now - g.circuitBreaker.lastFailureTime ≤ g.circuitBreaker.resetTimeout →
       g.allow now = (some GateError.circuitOpenErr, g)) ∧
    (g.circuitBreaker.state ≠ circuitOpen →
       ((g.allow now).1 = some GateError.rateLimitExceeded ∨
         (g.allow now).1 = some GateError.connectionLimit) →
       (g.allow now).2.circuitBreaker.failureCount = g.circuitBreaker.failureCount + 1) := by
  constructor
  · intro hopen helapsed
    have hcb : g.circuitBreaker.allow now = (some GateError.circuitOpenErr, g.circuitBreaker) := by
      simp [CircuitBreaker.allow, hopen, not_lt.mpr helapsed]
    simp [ConnectionGate.allow, hcb]
  · intro hstate hrej
    have hcb : g.circuitBreaker.allow now = (none, g.circuitBreaker) := by
      simp [CircuitBreaker.allow, hstate]
    rcases hrl : g.rateLimiter.allow now with ⟨r, rl'⟩
    cases r with
    | some e =>
      simp only [ConnectionGate.allow, hcb, hrl] at hrej ⊢
      exact recordFailure_failureCount _ _
    | none =>
      rcases hcl : g.connectionLimiter.acquireWithContext with ⟨r2, cl'⟩
      cases r2 with
      | some e =>
        simp only [ConnectionGate.allow, hcb, hrl, hcl] at hrej ⊢
        exact recordFailure_failureCount _ _
      | none =>
        simp only [ConnectionGate.allow, hcb, hrl, hcl] at hrej
        rcases hrej with h | h <;> simp at h

/-- C2 amended, witnessed at the counterexample gate: the 11th attempt's
rate-limit rejection adds one to the failure counter. -/
theorem C2_amended_witness :
    ((gateAllowIter (newConnectionGate (some { maxRequestsPerSecond := 1 }) 0) 0 10).allow
        0).2.circuitBreaker.failureCount
      = (gateAllowIter (newConnectionGate (some { maxRequestsPerSecond := 1 }) 0) 0
          10).circuitBreaker.failureCount + 1 :=
  (C2_amended (gateAllowIter (newConnectionGate (some { maxRequestsPerSecond := 1 }) 0) 0 10)
      0).2 (by decide) (Or.inl (by decide))

/- ### C5 -/

/-- C5 counterexample: a facade-level `Exec` whose operation fails (the call
returns an error) still leaves `FailedQueries` at 0 and increments
`SuccessfulQueries` — the deferred metrics call passes a literal `nil`
error, so the failed counter is not incremented iff-style as claimed. -/
theorem C5_counterexample :
    (AdvancedDB.exec defaultAdvancedDBState 0 0 false).1 = GateOutcome.opFailed ∧
    (AdvancedDB.exec defaultAdvancedDBState 0 0 false).2.metrics.failedQueries = 0 ∧
    (AdvancedDB.exec defaultAdvancedDBState 0 0 false).2.metrics.successfulQueries = 1 := by
  decide

/-- C5 amended: facade-level `Exec` and `Query` invoke the metrics record
with a `nil` error regardless of the operation's outcome, so every call
increments `succeeded` and leaves `failed` unchanged; `total` and the
cumulative duration advance, and `slow` increments iff the duration strictly
exceeds the slow threshold. -/
theorem C5_amended (s : AdvancedDBState) (now duration : Int) (opOk : Bool) :
    ((AdvancedDB.exec s now duration opOk).2.metrics.totalQueries
        = s.metrics.totalQueries + 1 ∧
     (AdvancedDB.exec s now duration opOk).2.metrics.successfulQueries
        = s.metrics.successfulQueries + 1 ∧
     (AdvancedDB.exec s now duration opOk).2.metrics.failedQueries
        = s.metrics.failedQueries ∧
     (AdvancedDB.exec s now duration opOk).2.metrics.totalQueryTime
        = s.metrics.totalQueryTime + duration ∧
     (AdvancedDB.exec s now duration opOk).2.metrics.slowQueries
        = s.metrics.slowQueries
            + (if duration > s.metrics.slowQueryThreshold then 1 else 0)) ∧
    (AdvancedDB.query s now duration opOk).2.metrics
      = (AdvancedDB.exec s now duration opOk).2.metrics := by
  refine ⟨?_, rfl⟩
  simp only [AdvancedDB.exec, DBMetrics.recordQuery, if_neg Bool.false_ne_true]
  split <;> simp

/- ### C8 -/

/-- C8 counterexample: a full statement cache (capacity 1, holding handle 1
under key "a") receives a new statement; the old entry is evicted but the
call closes no handle at all — the evicted compiled handle is leaked, not
released as claimed. -/
theorem C8_counterexample :
    (PreparedStatementCache.put { cache := [("a", 1)], maxSize := 1 } "b" 2).1.cache
      = [("b", 2)] ∧
    (PreparedStatementCache.put { cache := [("a", 1)], maxSize := 1 } "b" 2).2 = [] := by
  decide

/-- C8 amended: inserting into a full cache evicts exactly one existing entry
(the cache size is preserved) but releases no compiled handle — `Put` closes
nothing on any path; `Clear` empties the cache and releases every remaining
compiled handle. -/
theorem C8_amended (psc : PreparedStatementCache) (q : String) (v : Nat)
    (hfull : psc.maxSize ≤ psc.cache.length)
    (hfresh : ∀ kv ∈ psc.cache, kv.1 ≠ q)
    (hne : psc.cache ≠ []) :
    ((psc.put q v).1.cache = (q, v) :: psc.cache.tail ∧
     (psc.put q v).1.cache.length = psc.cache.length ∧
     (psc.put q v).2 = []) ∧
    (psc.clear.1.cache = [] ∧ psc.clear.2 = psc.cache.map (fun kv => kv.2)) := by
  refine ⟨⟨?_, ?_, rfl⟩, rfl, rfl⟩
  · simp only [PreparedStatementCache.put, if_pos hfull]
    match hc : psc.cache with
    | [] => exact absurd hc hne
    | kv :: rest =>
      simp only [List.tail_cons]
      congr 1
      rw [List.filter_eq_self.mpr]
      intro a ha
      have := hfresh a (by rw [hc]; exact List.mem_cons_of_mem _ ha)
      simpa using this
  · simp only [PreparedStatementCache.put, if_pos hfull]
    match hc : psc.cache with
    | [] => exact absurd hc hne
    | kv :: rest =>
      simp only [List.length_cons]
      rw [List.filter_eq_self.mpr]
      intro a ha
      have := hfresh a (by rw [hc]; exact List.mem_cons_of_mem _ ha)
      simpa using this

/-- C8 amended, witnessed on a concrete full cache of capacity 1. -/
theorem C8_amended_witness :
    (PreparedStatementCache.put { cache := [("a", 1)], maxSize := 1 } "b" 2).2 = [] ∧
    (PreparedStatementCache.clear { cache := [("a", 1)], maxSize := 1 }).2 = [1] :=
  ⟨(C8_amended { cache := [("a", 1)], maxSize := 1 } "b" 2 (by decide) (by decide)
      (by decide)).1.2.2,
   (C8_amended { cache := [("a", 1)], maxSize := 1 } "b" 2 (by decide) (by decide)
      (by decide)).2.2⟩

/-- A scalar whose Go type is JSON-stable decodes back to itself. -/
theorem decode_encode_scalar (a : GoVal) (h : a.jsonStable) :
    JScalar.decodeScalar (GoVal.encodeScalar a) = a := by
  cases a <;>
    simp [GoVal.encodeScalar, JScalar.decodeScalar, GoVal.jsonStable] at h ⊢

/-- `allowConnection` never decreases any per-IP connection count. -/
theorem allowConnection_ipCount_le (s : TCPServerState) (ip ip' : String) :
    s.ipCount ip ≤ ((s.allowConnection ip').2).ipCount ip := by
  simp only [TCPServerState.allowConnection]
  split
  · exact le_refl _
  · split
    · exact le_refl _
    · split
      · split
        · exact le_refl _
        · show s.ipCount ip ≤
            ({ s with ipConnections :=
                mapStore s.ipConnections ip' (s.ipCount ip' + 1) } : TCPServerState).ipCount ip
          simp only [TCPServerState.ipCount, mapStore_lookup]
          by_cases hip : ip = ip'
          · subst hip
            rw [if_pos rfl, Option.getD_some]
            omega
          · rw [if_neg hip]
      · exact le_refl _

/-- An admitted connection (with a positive per-IP limit) increments the per-IP
count by one. -/
theorem allowConnection_increments (s : TCPServerState) (ip : String)
    (hmax : 0 < s.config.maxConnectionsPerIP)
    (hadm : (s.allowConnection ip).1 = true) :
    (s.allowConnection ip).2.ipCount ip = s.ipCount ip + 1 := by
  by_cases hbl : ip ∈ s.blacklistMap
  · simp [TCPServerState.allowConnection, hbl] at hadm
  · by_cases hwl : s.whitelistMap ≠ [] ∧ ip ∉ s.whitelistMap
    · simp [TCPServerState.allowConnection, hbl, hwl] at hadm
    · by_cases hcnt : s.ipCount ip ≥ s.config.maxConnectionsPerIP
      · simp [TCPServerState.allowConnection, hbl, hwl, hmax, hcnt] at hadm
      · rw [ge_iff_le, TCPServerState.ipCount] at hcnt
        simp [TCPServerState.allowConnection, hbl, hwl, hmax, hcnt,
          TCPServerState.ipCount, mapStore_lookup]

/-- Once the per-IP count has reached a positive limit, `allowConnection`
rejects and leaves the state unchanged. -/
theorem allowConnection_rejects_at_limit (s : TCPServerState) (ip : String)
    (hmax : 0 < s.config.maxConnectionsPerIP)
    (hcnt : s.config.maxConnectionsPerIP ≤ s.ipCount ip) :
    s.allowConnection ip = (false, s) := by
  by_cases hbl : ip ∈ s.blacklistMap
  · simp [TCPServerState.allowConnection, hbl]
  · by_cases hwl : s.whitelistMap ≠ [] ∧ ip ∉ s.whitelistMap
    · simp [TCPServerState.allowConnection, hbl, hwl]
    · simp [TCPServerState.allowConnection, hbl, hwl, hmax, hcnt]

/-- Lifecycle steps never change the server configuration. -/
theorem serverStep_config (s : TCPServerState) (e : ServerEvent) :
    (serverStep s e).config = s.config := by
  cases e with
  | disconnect ip => rfl
  | connect ip =>
    simp only [serverStep, TCPServerState.allowConnection]
    split
    · rfl
    · split
      · rfl
      · split
        · split <;> rfl
        · rfl

/-- A key that `findEntry` cannot locate is not present. -/
theorem not_present_of_findEntry_none (c : InMemoryCache α) (k : String)
    (h : c.findEntry k = none) : c.present k = false := by
  rw [← Bool.not_eq_true]
  intro hp
  rw [InMemoryCache.present, List.any_eq_true] at hp
  obtain ⟨it, hit, hkey⟩ := hp
  rw [InMemoryCache.findEntry, List.find?_eq_none] at h
  exact h it hit hkey

/-- After removing a key, no entry with that key remains. -/
theorem removeEntry_any_eq_false (es : List (CacheItem α)) (k : String) :
    (removeEntry es k).any (fun it => it.key = k) = false := by
  rw [List.any_eq_false]
  intro x hx
  rw [removeEntry] at hx
  have hmem := List.mem_filter.mp hx
  simpa using hmem.2

/-- After a missed `Get` (absent key, or expired entry — which the miss
removes), the key is not present. -/
theorem get_miss_not_present (c : InMemoryCache α) (k : String) (now : Int)
    (h : (c.get k now).1 = none) : (c.get k now).2.present k = false := by
  cases hf : c.findEntry k with
  | none =>
    simp only [InMemoryCache.get, hf]
    exact not_present_of_findEntry_none c k hf
  | some ci =>
    by_cases hexp : ci.isExpired now
    · simp only [InMemoryCache.get, hf, hexp, if_true]
      simp only [InMemoryCache.present]
      exact removeEntry_any_eq_false c.entries k
    · exfalso
      rw [InMemoryCache.get] at h
      simp [hf, hexp] at h

/-- The entry just written by `Set` is found under its key with the computed
absolute expiry. -/
theorem findEntry_after_set (c : InMemoryCache α) (k : String) (v : α) (ttl now : Int) :
    (c.set k v ttl now).findEntry k = some ⟨k, v, c.effectiveExpire ttl now⟩ := by
  cases hf : c.findEntry k with
  | some ci =>
    simp only [InMemoryCache.set, hf]
    simp only [InMemoryCache.findEntry]
    exact List.find?_cons_of_pos _ (by simp)
  | none =>
    simp only [InMemoryCache.set, hf]
    simp only [InMemoryCache.findEntry]
    exact List.find?_cons_of_pos _ (by simp)

/-- `storeIdempotency` over a batch of non-empty keys is `Set` over the same
batch on the underlying idempotency cache. -/
theorem storeAllIdem_cache (resps : List (String × TCPResponse)) (s : TCPServerState)
    (c : InMemoryCache TCPResponse) (now : Int)
    (hc : s.idemCache = some c)
    (hkeys : ∀ kv ∈ resps, kv.1 ≠ "") :
    (storeAllIdem s resps now).idemCache
      = some (setAll c resps (300 * nsPerSec) now) := by
  induction resps generalizing s c with
  | nil => simpa [storeAllIdem, setAll] using hc
  | cons kr resps ih =>
    have hkey : kr.1 ≠ "" := hkeys kr (List.mem_cons_self _ _)
    have hstep : (s.storeIdempotency (msgWithKey kr.1) kr.2 now).idemCache
        = some (c.set kr.1 kr.2 (300 * nsPerSec) now) := by
      simp [TCPServerState.storeIdempotency, hc, msgWithKey, hkey]
    have := ih (s.storeIdempotency (msgWithKey kr.1) kr.2 now)
      (c.set kr.1 kr.2 (300 * nsPerSec) now) hstep
      (fun kv h => hkeys kv (List.mem_cons_of_mem _ h))
    simpa [storeAllIdem, setAll] using this

/- ### C6 -/

/-- C6: setting a fresh key on a full result cache evicts exactly the
least-recently-used (back) entry, the new item becoming the MRU front; and
after inserting C+1 pairwise-distinct keys in order into an empty cache of
capacity C with no intervening gets, the first key is no longer present while
every later key is. -/
theorem C6_lru_capacity_eviction :
    (∀ (α : Type) (c : InMemoryCache α) (k : String) (v : α) (ttl now : Int),
       c.entries.length = c.capacity → 1 ≤ c.capacity → c.present k = false →
       (c.set k v ttl now).entries
         = ⟨k, v, c.effectiveExpire ttl now⟩ :: c.entries.dropLast) ∧
    (∀ (α : Type) (C : Nat) (d ttl now : Int) (kv0 : String × α)
       (rest : List (String × α)),
       1 ≤ C → rest.length = C →
       (((kv0 :: rest).map Prod.fst).Nodup) →
       (setAll (mkInMemoryCache α (C : Int) d) (kv0 :: rest) ttl now).present kv0.1
           = false ∧
       ∀ kv ∈ rest,
         (setAll (mkInMemoryCache α (C : Int) d) (kv0 :: rest) ttl now).present kv.1
           = true) := by
  constructor
  · intro α c k v ttl now hlen hcap hfresh
    rw [set_fresh_entries c k v ttl now hfresh, if_pos (le_of_eq hlen.symm)]
  · intro α C d ttl now kv0 rest hC hrest hnodup
    have hcapeq : (mkInMemoryCache α (C : Int) d).capacity = C := by
      simp only [mkInMemoryCache]
      rw [if_neg (by omega)]
      exact Int.toNat_natCast C
    have hentries : (mkInMemoryCache α (C : Int) d).entries = [] := rfl
    have hchar := setAll_fresh_entries (kv0 :: rest) (mkInMemoryCache α (C : Int) d)
      ttl now (by rw [hcapeq]; exact hC) (by rw [hentries, hcapeq]; exact Nat.zero_le C)
      (fun kv _ => rfl) hnodup
    have hkeymap : ∀ (l : List (String × α)),
        (l.map (freshItem (mkInMemoryCache α (C : Int) d) ttl now)).map CacheItem.key
          = l.map Prod.fst := by
      intro l
      rw [List.map_map]
      rfl
    have hfinal : (setAll (mkInMemoryCache α (C : Int) d) (kv0 :: rest) ttl now).entries
        = (rest.map (freshItem (mkInMemoryCache α (C : Int) d) ttl now)).reverse := by
      rw [hchar.1, hentries, hcapeq, List.append_nil, List.map_cons, List.reverse_cons]
      exact List.take_left' (by rw [List.length_reverse, List.length_map]; exact hrest)
    simp only [List.map_cons, List.nodup_cons, List.mem_map] at hnodup
    constructor
    · rw [← Bool.not_eq_true]
      intro hpres
      have hmem := (present_eq_true_iff _ kv0.1).mp hpres
      rw [hfinal, List.map_reverse, hkeymap, List.mem_reverse] at hmem
      exact hnodup.1 (by simpa [List.mem_map] using hmem)
    · intro kv hkv
      rw [present_eq_true_iff, hfinal, List.map_reverse, hkeymap, List.mem_reverse]
      exact List.mem_map_of_mem Prod.fst hkv

/-- C6, witnessed at capacity 2 with keys "a", "b", "c" (single-step part at
capacity 1 with the cache holding "x"): after the three inserts "a" is gone
and "b", "c" are present; the full-cache insert drops exactly the back
entry. -/
theorem C6_witness :
    (InMemoryCache.set
        { entries := [⟨"x", 5, none⟩], capacity := 1, defaultTTL := 0,
          stats := ⟨0, 0, 0, 0⟩ } "y" 7 0 0).entries = [⟨"y", 7, none⟩] ∧
    (setAll (mkInMemoryCache Nat (2 : Int) 0) [("a", 1), ("b", 2), ("c", 3)] 0 0).present "a"
      = false ∧
    (setAll (mkInMemoryCache Nat (2 : Int) 0) [("a", 1), ("b", 2), ("c", 3)] 0 0).present "b"
      = true ∧
    (setAll (mkInMemoryCache Nat (2 : Int) 0) [("a", 1), ("b", 2), ("c", 3)] 0 0).present "c"
      = true :=
  ⟨(C6_lru_capacity_eviction.1 Nat
      { entries := [⟨"x", 5, none⟩], capacity := 1, defaultTTL := 0, stats := ⟨0, 0, 0, 0⟩ }
      "y" 7 0 0 (by decide) (by decide) (by decide)).trans (by decide),
   (C6_lru_capacity_eviction.2 Nat 2 0 0 0 ("a", 1) [("b", 2), ("c", 3)]
      (by decide) (by decide) (by decide)).1,
   (C6_lru_capacity_eviction.2 Nat 2 0 0 0 ("a", 1) [("b", 2), ("c", 3)]
      (by decide) (by decide) (by decide)).2 ("b", 2) (by decide),
   (C6_lru_capacity_eviction.2 Nat 2 0 0 0 ("a", 1) [("b", 2), ("c", 3)]
      (by decide) (by decide) (by decide)).2 ("c", 3) (by decide)⟩

/- ### C3 -/

/-- C3: from a closed breaker with a freshly reset counter, any run of at
least `maxFailures` recorded failures leaves the breaker open; while open and
within `resetTimeout` of the last failure, both the breaker and the whole
gate reject every admission attempt with the circuit-open error and change
nothing; once `now − lastFailureTime` strictly exceeds `resetTimeout`, the
next admission attempt is admitted, moving the breaker to half-open with the
failure counter reset to zero. -/
theorem C3_breaker_state_machine :
    (∀ (cb : CircuitBreaker) (ts : List Int),
       cb.state = circuitClosed → cb.failureCount = 0 →
       1 ≤ cb.maxFailures → cb.maxFailures ≤ (ts.length : Int) →
       (recordFailures cb ts).state = circuitOpen) ∧
    (∀ (cb : CircuitBreaker) (now : Int),
       cb.state = circuitOpen →
       now - cb.lastFailureTime ≤ cb.resetTimeout →
       cb.allow now = (some GateError.circuitOpenErr, cb)) ∧
    (∀ (g : ConnectionGate) (now : Int),
       g.circuitBreaker.state = circuitOpen →
       now - g.circuitBreaker.lastFailureTime ≤ g.circuitBreaker.resetTimeout →
       g.allow now = (some GateError.circuitOpenErr, g)) ∧
    (∀ (cb : CircuitBreaker) (now : Int),
       cb.state = circuitOpen →
       cb.resetTimeout < now - cb.lastFailureTime →
       cb.allow now = (none, { cb with state := circuitHalfOpen, failureCount := 0 })) := by
  refine ⟨?_, ?_, ?_, ?_⟩
  · intro cb ts hclosed hzero hone hlen
    exact recordFailures_opens ts cb hclosed (by omega) (by omega)
  · intro cb now hopen helapsed
    simp [CircuitBreaker.allow, hopen, not_lt.mpr helapsed]
  · intro g now hopen helapsed
    have hcb : g.circuitBreaker.allow now
        = (some GateError.circuitOpenErr, g.circuitBreaker) := by
      simp [CircuitBreaker.allow, hopen, not_lt.mpr helapsed]
    simp [ConnectionGate.allow, hcb]
  · intro cb now hopen helapsed
    simp [CircuitBreaker.allow, hopen, helapsed]

/-- C3, witnessed with `maxFailures = 2`: two failures open a fresh breaker;
the open fixture rejects at `now = 100` (50 elapsed ≤ 100) at the breaker and
at the gate; at `now = 151` (101 elapsed > 100) it is admitted into
half-open with the counter reset. -/
theorem C3_witness :
    (recordFailures (newCircuitBreaker (some { maxFailures := 2 })) [5, 7]).state
      = circuitOpen ∧
    cbOpenFixture.allow 100 = (some GateError.circuitOpenErr, cbOpenFixture) ∧
    gateOpenFixture.allow 100 = (some GateError.circuitOpenErr, gateOpenFixture) ∧
    cbOpenFixture.allow 151
      = (none, { cbOpenFixture with state := circuitHalfOpen, failureCount := 0 }) :=
  ⟨C3_breaker_state_machine.1 (newCircuitBreaker (some { maxFailures := 2 })) [5, 7]
      (by decide) (by decide) (by decide) (by decide),
   C3_breaker_state_machine.2.1 cbOpenFixture 100 (by decide) (by decide),
   C3_breaker_state_machine.2.2.1 gateOpenFixture 100 (by decide) (by decide),
   C3_breaker_state_machine.2.2.2 cbOpenFixture 151 (by decide) (by decide)⟩

/- ### C10 -/

/-- C10: the idempotency store created by `NewTCPServer` is the LRU+TTL
in-memory cache with fixed capacity 10000 and default TTL 300 s; storing
into it when full evicts exactly the least-recently-used entry; and a
response stored under key k is no longer found — even while its 5-minute TTL
has not yet expired — once 10000 distinct other keys have been stored after
it. -/
theorem C10_idem_cache_bounded_lru :
    (∀ cfg : TCPServerConfig, cfg.enableIdempotency = true →
       (newTCPServer cfg).idemCache
         = some (mkInMemoryCache TCPResponse 10000 (300 * nsPerSec))) ∧
    ((mkInMemoryCache TCPResponse 10000 (300 * nsPerSec)).capacity = 10000 ∧
     (mkInMemoryCache TCPResponse 10000 (300 * nsPerSec)).defaultTTL = 300 * nsPerSec) ∧
    (∀ (c : InMemoryCache TCPResponse) (k : String) (r : TCPResponse) (ttl now : Int),
       c.entries.length = c.capacity → 1 ≤ c.capacity → c.present k = false →
       (c.set k r ttl now).entries
         = ⟨k, r, c.effectiveExpire ttl now⟩ :: c.entries.dropLast) ∧
    (∀ (cfg : TCPServerConfig) (k : String) (r : TCPResponse) (t0 t1 now : Int)
       (others : List (String × TCPResponse)),
       cfg.enableIdempotency = true → k ≠ "" →
       others.length = 10000 → ((others.map Prod.fst).Nodup) →
       (∀ kv ∈ others, kv.1 ≠ k ∧ kv.1 ≠ "") →
       now ≤ t0 + 300 * nsPerSec →
       ((storeAllIdem ((newTCPServer cfg).storeIdempotency (msgWithKey k) r t0)
           others t1).checkIdempotency (msgWithKey k) now).1 = none) := by
  refine ⟨?_, ⟨by decide, by decide⟩, ?_, ?_⟩
  · intro cfg hidem
    simp [newTCPServer, hidem]
  · intro c k r ttl now hlen hcap hfresh
    rw [set_fresh_entries c k r ttl now hfresh, if_pos (le_of_eq hlen.symm)]
  · intro cfg k r t0 t1 now others hidem hk hlen hnodup hneq hwithin
    have hc0 : (newTCPServer cfg).idemCache
        = some (mkInMemoryCache TCPResponse 10000 (300 * nsPerSec)) := by
      simp [newTCPServer, hidem]
    have hs1 : ((newTCPServer cfg).storeIdempotency (msgWithKey k) r t0).idemCache
        = some ((mkInMemoryCache TCPResponse 10000 (300 * nsPerSec)).set k r
            (300 * nsPerSec) t0) := by
      simp [TCPServerState.storeIdempotency, hc0, msgWithKey, hk]
    have hcap10000 : (mkInMemoryCache TCPResponse 10000 (300 * nsPerSec)).capacity
        = 10000 := by decide
    have hc1entries :
        ((mkInMemoryCache TCPResponse 10000 (300 * nsPerSec)).set k r
          (300 * nsPerSec) t0).entries
        = [⟨k, r, some (t0 + 300 * nsPerSec)⟩] := by
      rw [set_fresh_entries (mkInMemoryCache TCPResponse 10000 (300 * nsPerSec)) k r
        (300 * nsPerSec) t0 rfl]
      norm_num [mkInMemoryCache, InMemoryCache.effectiveExpire, nsPerSec]
    have hpresentc1 : ∀ kv ∈ others,
        ((mkInMemoryCache TCPResponse 10000 (300 * nsPerSec)).set k r
          (300 * nsPerSec) t0).present kv.1 = false := by
      intro kv hkv
      simp only [InMemoryCache.present, hc1entries, List.any_cons, List.any_nil,
        Bool.or_false, decide_eq_false_iff_not]
      exact fun h => (hneq kv hkv).1 h.symm
    have hchar := setAll_fresh_entries others
      ((mkInMemoryCache TCPResponse 10000 (300 * nsPerSec)).set k r (300 * nsPerSec) t0)
      (300 * nsPerSec) t1
      (by rw [set_capacity, hcap10000]; omega)
      (by rw [hc1entries, set_capacity, hcap10000]; simp)
      hpresentc1 hnodup
    have hfinalentries :
        (setAll ((mkInMemoryCache TCPResponse 10000 (300 * nsPerSec)).set k r
            (300 * nsPerSec) t0) others (300 * nsPerSec) t1).entries
        = (others.map (freshItem
            ((mkInMemoryCache TCPResponse 10000 (300 * nsPerSec)).set k r
              (300 * nsPerSec) t0) (300 * nsPerSec) t1)).reverse := by
      rw [hchar.1, hc1entries, set_capacity, hcap10000]
      exact List.take_left' (by rw [List.length_reverse, List.length_map]; exact hlen)
    have hfinalpresent :
        (setAll ((mkInMemoryCache TCPResponse 10000 (300 * nsPerSec)).set k r
            (300 * nsPerSec) t0) others (300 * nsPerSec) t1).present k = false := by
      rw [← Bool.not_eq_true]
      intro hpres
      have hmem := (present_eq_true_iff _ k).mp hpres
      rw [hfinalentries, List.map_reverse, List.mem_reverse, List.map_map] at hmem
      have hmem' : k ∈ others.map Prod.fst := by
        simpa [Function.comp, freshItem] using hmem
      obtain ⟨kv, hkv, hkeq⟩ := List.mem_map.mp hmem'
      exact (hneq kv hkv).1 hkeq
    have hs2 := storeAllIdem_cache others
      ((newTCPServer cfg).storeIdempotency (msgWithKey k) r t0)
      ((mkInMemoryCache TCPResponse 10000 (300 * nsPerSec)).set k r (300 * nsPerSec) t0)
      t1 hs1 (fun kv h => (hneq kv h).2)
    have hkey : (msgWithKey k).idempotencyKey = k := rfl
    have hget := get_not_present
      (setAll ((mkInMemoryCache TCPResponse 10000 (300 * nsPerSec)).set k r
        (300 * nsPerSec) t0) others (300 * nsPerSec) t1) k now hfinalpresent
    simp [TCPServerState.checkIdempotency, hs2, hkey, hk, hget]

/-- C10, witnessed: store a response under key "b" at t = 0, then store
10000 responses under the distinct keys "a", "aa", ..., and the lookup of
"b" at t = 0 (well inside the 5-minute TTL) misses. -/
theorem C10_witness :
    ((storeAllIdem ((newTCPServer idemOnlyConfig).storeIdempotency (msgWithKey "b")
        (newErrorResponse "w" "e") 0) (witnessKeys 10000) 0).checkIdempotency
        (msgWithKey "b") 0).1 = none :=
  C10_idem_cache_bounded_lru.2.2.2 idemOnlyConfig "b" (newErrorResponse "w" "e") 0 0 0
    (witnessKeys 10000) rfl (by decide)
    (by simp [witnessKeys])
    (by
      simp only [witnessKeys, List.map_map]
      have hinj : Function.Injective
          (fun i : Nat => String.mk (List.replicate (i + 1) 'a')) := by
        intro i j hij
        have := congrArg (fun s : String => s.data.length) hij
        simp at this
        omega
      exact (List.nodup_range 10000).map (fun i j h => hinj h))
    (by
      intro kv hkv
      simp only [witnessKeys, List.mem_map, List.mem_range] at hkv
      obtain ⟨i, _, rfl⟩ := hkv
      refine ⟨?_, ?_⟩
      · intro h
        have := congrArg String.data h
        rw [List.replicate_succ] at this
        simp at this
      · intro h
        have := congrArg String.data h
        rw [List.replicate_succ] at this
        simp at this)
    (by decide)

/- ### C4 -/

/-- C4 counterexample: with idempotency enabled, a PING carrying idempotency
key "K" misses the cache, its response is emitted, and — contrary to the
claim that the resulting response is stored for every request kind — nothing
is stored under "K". -/
theorem C4_counterexample :
    ((newTCPServer idemOnlyConfig).handleMessage constOracle
        { type := "PING", id := "1", query := "", args := [], idempotencyKey := "K",
          payload := none, requestSize := 0, clientIP := "ip" } 0).1
      = [{ id := "1", success := true, error := "", data := some pingData }] ∧
    (((newTCPServer idemOnlyConfig).handleMessage constOracle
        { type := "PING", id := "1", query := "", args := [], idempotencyKey := "K",
          payload := none, requestSize := 0, clientIP := "ip" } 0).2.1.idemCache.map
      (fun c => c.present "K")) = some false := by
  decide

/-- C4 amended: with idempotency enabled and a non-empty key (DDoS checks
off), a cache hit re-emits the cached response and no processing occurs; on a
miss, only the EXEC and QUERY kinds store the resulting response — success or
error alike, whatever the oracle returns — under the key with a 5-minute
TTL; a PING's response is emitted but never stored, and more generally for
every kind other than EXEC and QUERY (PING, STATS, METRICS, and the default
branch that handles unknown kinds and CLOSE) the facade is not invoked for
storage, the server state keeps exactly the cache left by the missed lookup,
and no entry exists under the key afterwards. The final conjunct shows the
stored entry carries the absolute expiry `now + 300 s`. -/
theorem C4_amended (s : TCPServerState) (oracle : RuntimeOracle) (msg : TCPMessage)
    (now : Int) (c : InMemoryCache TCPResponse)
    (hddos : s.config.enableDDoSProtection = false)
    (hidem : s.config.enableIdempotency = true)
    (hcache : s.idemCache = some c)
    (hkey : msg.idempotencyKey ≠ "") :
    (∀ r : TCPResponse, (c.get msg.idempotencyKey now).1 = some r →
       s.handleMessage oracle msg now
         = ([r], { s with idemCache := some (c.get msg.idempotencyKey now).2 }, false)) ∧
    ((c.get msg.idempotencyKey now).1 = none → msg.type = "EXEC" →
       s.handleMessage oracle msg now
         = ([oracle.execResp msg],
            { s with idemCache := some ((c.get msg.idempotencyKey now).2.set
                msg.idempotencyKey (oracle.execResp msg) (300 * nsPerSec) now) }, true)) ∧
    ((c.get msg.idempotencyKey now).1 = none → msg.type = "QUERY" →
       s.handleMessage oracle msg now
         = ([oracle.queryResp msg],
            { s with idemCache := some ((c.get msg.idempotencyKey now).2.set
                msg.idempotencyKey (oracle.queryResp msg) (300 * nsPerSec) now) }, true)) ∧
    ((c.get msg.idempotencyKey now).1 = none → msg.type = "PING" →
       s.handleMessage oracle msg now
         = ([{ id := msg.id, success := true, error := "", data := some pingData }],
            { s with idemCache := some (c.get msg.idempotencyKey now).2 }, false) ∧
       (c.get msg.idempotencyKey now).2.present msg.idempotencyKey = false) ∧
    ((c.get msg.idempotencyKey now).1 = none →
       msg.type ≠ "EXEC" → msg.type ≠ "QUERY" →
       (s.handleMessage oracle msg now).2.1
           = { s with idemCache := some (c.get msg.idempotencyKey now).2 } ∧
       (s.handleMessage oracle msg now).2.2 = false ∧
       (c.get msg.idempotencyKey now).2.present msg.idempotencyKey = false) ∧
    (∀ (c' : InMemoryCache TCPResponse) (k : String) (r : TCPResponse),
       (c'.set k r (300 * nsPerSec) now).findEntry k
         = some ⟨k, r, some (now + 300 * nsPerSec)⟩) := by
  have hchk : s.checkIdempotency msg now
      = ((c.get msg.idempotencyKey now).1,
         { s with idemCache := some (c.get msg.idempotencyKey now).2 }) := by
    simp [TCPServerState.checkIdempotency, hcache, hkey]
  refine ⟨?_, ?_, ?_, ?_, ?_, ?_⟩
  · intro r hr
    simp [TCPServerState.handleMessage, hddos, hidem, hkey, hchk, hr]
  · intro hmiss htype
    simp [TCPServerState.handleMessage, TCPServerState.storeIdempotency, hddos, hidem,
      hkey, hchk, hmiss, htype]
  · intro hmiss htype
    simp [TCPServerState.handleMessage, TCPServerState.storeIdempotency, hddos, hidem,
      hkey, hchk, hmiss, htype]
  · intro hmiss htype
    refine ⟨?_, get_miss_not_present c msg.idempotencyKey now hmiss⟩
    simp [TCPServerState.handleMessage, hddos, hidem, hkey, hchk, hmiss, htype]
  · intro hmiss hnexec hnquery
    refine ⟨?_, ?_, get_miss_not_present c msg.idempotencyKey now hmiss⟩ <;>
    · by_cases hping : msg.type = "PING"
      · simp [TCPServerState.handleMessage, hddos, hidem, hkey, hchk, hmiss, hping]
      · by_cases hstats : msg.type = "STATS"
        · simp [TCPServerState.handleMessage, hddos, hidem, hkey, hchk, hmiss, hping,
            hnexec, hnquery, hstats]
        · by_cases hmetrics : msg.type = "METRICS"
          · simp [TCPServerState.handleMessage, hddos, hidem, hkey, hchk, hmiss, hping,
              hnexec, hnquery, hstats, hmetrics]
          · simp [TCPServerState.handleMessage, hddos, hidem, hkey, hchk, hmiss, hping,
              hnexec, hnquery, hstats, hmetrics]
  · intro c' k r
    rw [findEntry_after_set]
    simp [InMemoryCache.effectiveExpire, nsPerSec]

/-- C4 amended, witnessed: after an EXEC with key "K" is processed and stored,
replaying a request with key "K" re-emits the stored response without
processing; the first EXEC itself was processed and stored under "K"; a
STATS request and an unknown-kind request carrying key "K" are handled
without invoking the facade and leave nothing stored under "K". -/
theorem C4_amended_witness :
    (((newTCPServer idemOnlyConfig).storeIdempotency (msgWithKey "K")
        (newErrorResponse "w" "e") 0).handleMessage constOracle (msgWithKey "K") 0).1
      = [newErrorResponse "w" "e"] ∧
    (((newTCPServer idemOnlyConfig).storeIdempotency (msgWithKey "K")
        (newErrorResponse "w" "e") 0).handleMessage constOracle (msgWithKey "K") 0).2.2
      = false ∧
    ((newTCPServer idemOnlyConfig).handleMessage constOracle (msgWithKey "K") 0).2.2
      = true ∧
    (((newTCPServer idemOnlyConfig).handleMessage constOracle (msgWithKey "K")
        0).2.1.idemCache.map (fun c => c.present "K")) = some true ∧
    ((newTCPServer idemOnlyConfig).handleMessage constOracle
        { type := "STATS", id := "2", query := "", args := [], idempotencyKey := "K",
          payload := none, requestSize := 0, clientIP := "" } 0).2.2 = false ∧
    (((newTCPServer idemOnlyConfig).handleMessage constOracle
        { type := "STATS", id := "2", query := "", args := [], idempotencyKey := "K",
          payload := none, requestSize := 0, clientIP := "" }
        0).2.1.idemCache.map (fun c => c.present "K")) = some false ∧
    ((newTCPServer idemOnlyConfig).handleMessage constOracle
        { type := "CLOSE", id := "3", query := "", args := [], idempotencyKey := "K",
          payload := none, requestSize := 0, clientIP := "" } 0).2.2 = false ∧
    (((newTCPServer idemOnlyConfig).handleMessage constOracle
        { type := "CLOSE", id := "3", query := "", args := [], idempotencyKey := "K",
          payload := none, requestSize := 0, clientIP := "" }
        0).2.1.idemCache.map (fun c => c.present "K")) = some false := by
  have h1 := (C4_amended ((newTCPServer idemOnlyConfig).storeIdempotency (msgWithKey "K")
      (newErrorResponse "w" "e") 0) constOracle (msgWithKey "K") 0
      ((mkInMemoryCache TCPResponse 10000 (300 * nsPerSec)).set "K"
        (newErrorResponse "w" "e") (300 * nsPerSec) 0)
      (by decide) (by decide) (by decide) (by decide)).1
      (newErrorResponse "w" "e") (by decide)
  have h2 := (C4_amended (newTCPServer idemOnlyConfig) constOracle (msgWithKey "K") 0
      (mkInMemoryCache TCPResponse 10000 (300 * nsPerSec))
      (by decide) (by decide) (by decide) (by decide)).2.1 (by decide) rfl
  have h3 := (C4_amended (newTCPServer idemOnlyConfig) constOracle
      { type := "STATS", id := "2", query := "", args := [], idempotencyKey := "K",
        payload := none, requestSize := 0, clientIP := "" } 0
      (mkInMemoryCache TCPResponse 10000 (300 * nsPerSec))
      (by decide) (by decide) (by decide) (by decide)).2.2.2.2.1
      (by decide) (by decide) (by decide)
  have h4 := (C4_amended (newTCPServer idemOnlyConfig) constOracle
      { type := "CLOSE", id := "3", query := "", args := [], idempotencyKey := "K",
        payload := none, requestSize := 0, clientIP := "" } 0
      (mkInMemoryCache TCPResponse 10000 (300 * nsPerSec))
      (by decide) (by decide) (by decide) (by decide)).2.2.2.2.1
      (by decide) (by decide) (by decide)
  refine ⟨by rw [h1], by rw [h1], by rw [h2], by rw [h2]; decide,
    h3.2.1, by rw [h3.1]; decide, h4.2.1, by rw [h4.1]; decide⟩

/- ### C7 -/

/-- C7 counterexample: an EXEC request whose `args` holds the integer 1 does
not survive the round trip — `json.Unmarshal` delivers every JSON number as
a `float64`, so the decoded frame differs from the original. -/
theorem C7_counterexample :
    decodeTCPMessage (encodeTCPMessage
      { type := "EXEC", id := "1", query := "INSERT", args := [GoVal.gInt 1],
        idempotencyKey := "", payload := none, requestSize := 0, clientIP := "" })
    ≠ { type := "EXEC", id := "1", query := "INSERT", args := [GoVal.gInt 1],
        idempotencyKey := "", payload := none, requestSize := 0, clientIP := "" } := by
  decide

/-- C7 amended: `decode(encode(msg)) = msg` holds for every request frame as
transported on the wire (implementation-filled fields at their zero values)
whose arguments are JSON-stable scalars — floats, strings, booleans, null;
integer arguments come back as floats and byte-sequence arguments as base64
strings, so frames containing them are excluded — and for every response
frame unconditionally. The optional idempotency key round-trips. -/
theorem C7_amended (m : TCPMessage) (r : TCPResponse)
    (hsize : m.requestSize = 0) (hip : m.clientIP = "")
    (hargs : ∀ a ∈ m.args, a.jsonStable) :
    decodeTCPMessage (encodeTCPMessage m) = m ∧
    decodeTCPResponse (encodeTCPResponse r) = r := by
  constructor
  · obtain ⟨t, i, q, args, key, p, rs, ip⟩ := m
    simp only at hsize hip hargs
    subst hsize
    subst hip
    have hargs' : ∀ a ∈ args, JScalar.decodeScalar (GoVal.encodeScalar a) = a :=
      fun a ha => decode_encode_scalar a (hargs a ha)
    simp only [encodeTCPMessage, decodeTCPMessage, TCPMessage.mk.injEq]
    refine ⟨trivial, trivial, ?_, ?_, ?_, trivial, trivial, trivial⟩
    · by_cases hq : q = "" <;> simp [hq]
    · by_cases ha : args = []
      · simp [ha]
      · rw [if_neg ha, Option.getD_some, List.map_map]
        calc args.map (JScalar.decodeScalar ∘ GoVal.encodeScalar)
            = args.map id := List.map_congr_left (fun a hx => hargs' a hx)
          _ = args := List.map_id args
    · by_cases hk : key = "" <;> simp [hk]
  · obtain ⟨i, su, e, d⟩ := r
    simp only [encodeTCPResponse, decodeTCPResponse, TCPResponse.mk.injEq]
    refine ⟨trivial, trivial, ?_, trivial⟩
    by_cases he : e = "" <;> simp [he]

/-- C7 amended, witnessed on a QUERY frame with stable scalar arguments, an
idempotency key and an opaque payload, and on an error response. -/
theorem C7_amended_witness :
    decodeTCPMessage (encodeTCPMessage
      { type := "QUERY", id := "7", query := "SELECT 1",
        args := [GoVal.gStr "x", GoVal.gBool true, GoVal.gNull, GoVal.gFloat (1 / 2)],
        idempotencyKey := "pay-42", payload := some "\x7b\x7d", requestSize := 0,
        clientIP := "" })
      = { type := "QUERY", id := "7", query := "SELECT 1",
          args := [GoVal.gStr "x", GoVal.gBool true, GoVal.gNull, GoVal.gFloat (1 / 2)],
          idempotencyKey := "pay-42", payload := some "\x7b\x7d", requestSize := 0,
          clientIP := "" } ∧
    decodeTCPResponse (encodeTCPResponse
      { id := "7", success := false, error := "boom", data := none })
      = { id := "7", success := false, error := "boom", data := none } :=
  C7_amended
    { type := "QUERY", id := "7", query := "SELECT 1",
      args := [GoVal.gStr "x", GoVal.gBool true, GoVal.gNull, GoVal.gFloat (1 / 2)],
      idempotencyKey := "pay-42", payload := some "\x7b\x7d", requestSize := 0,
      clientIP := "" }
    { id := "7", success := false, error := "boom", data := none }
    rfl rfl (by decide)

/- ### C9 -/

/-- C9: the per-IP connection counter is monotonically non-decreasing across
the whole connection lifecycle (admission increments it, disconnection
touches nothing); with a positive `max_conn_per_ip`, an admission increments
the counter by one, and once the counter has reached the limit every later
connection attempt from that IP is rejected with the state unchanged — for
the rest of the server's lifetime, whatever connects and disconnects happen
in between. -/
theorem C9_ip_counter_never_decreases :
    (∀ (s : TCPServerState) (e : ServerEvent) (ip : String),
       s.ipCount ip ≤ (serverStep s e).ipCount ip) ∧
    (∀ (s : TCPServerState) (ip : String),
       0 < s.config.maxConnectionsPerIP → (s.allowConnection ip).1 = true →
       (s.allowConnection ip).2.ipCount ip = s.ipCount ip + 1) ∧
    (∀ (s : TCPServerState) (ip : String),
       0 < s.config.maxConnectionsPerIP →
       s.config.maxConnectionsPerIP ≤ s.ipCount ip →
       s.allowConnection ip = (false, s)) ∧
    (∀ (s : TCPServerState) (evs : List ServerEvent) (ip : String),
       0 < s.config.maxConnectionsPerIP →
       s.config.maxConnectionsPerIP ≤ s.ipCount ip →
       ((serverRun s evs).allowConnection ip).1 = false) := by
  refine ⟨?_, allowConnection_increments, allowConnection_rejects_at_limit, ?_⟩
  · intro s e ip
    cases e with
    | disconnect ip' => exact le_refl _
    | connect ip' => exact allowConnection_ipCount_le s ip ip'
  · intro s evs ip hmax hcnt
    induction evs generalizing s with
    | nil =>
      show (s.allowConnection ip).1 = false
      rw [allowConnection_rejects_at_limit s ip hmax hcnt]
    | cons e evs ih =>
      have hconf := serverStep_config s e
      have hle : s.ipCount ip ≤ (serverStep s e).ipCount ip := by
        cases e with
        | connect ip' => exact allowConnection_ipCount_le s ip ip'
        | disconnect ip' => exact le_refl _
      exact ih (serverStep s e) (by rw [hconf]; exact hmax) (by rw [hconf]; omega)

/-- C9, witnessed with `max_conn_per_ip = 1`: after one admitted connection
from an IP (counter 0 → 1), a later attempt from the same IP is rejected even
though the earlier connection has disconnected in between. -/
theorem C9_witness :
    ((newTCPServer ddosOneConnConfig).allowConnection "1.2.3.4").2.ipCount "1.2.3.4"
      = (newTCPServer ddosOneConnConfig).ipCount "1.2.3.4" + 1 ∧
    ((serverRun ((newTCPServer ddosOneConnConfig).allowConnection "1.2.3.4").2
        [ServerEvent.disconnect "1.2.3.4"]).allowConnection "1.2.3.4").1 = false :=
  ⟨C9_ip_counter_never_decreases.2.1 (newTCPServer ddosOneConnConfig) "1.2.3.4"
      (by decide) (by decide),
   C9_ip_counter_never_decreases.2.2.2
      ((newTCPServer ddosOneConnConfig).allowConnection "1.2.3.4").2
      [ServerEvent.disconnect "1.2.3.4"] "1.2.3.4" (by decide) (by decide)⟩
